import Mathlib

/-!
Verification of the PlateCore interactive session tool (`core.py`).

This file shallowly embeds the state-relevant parts of the program:
the string primitives the dispatcher and handlers use, the dictionary
collections (Python `dict`s are modelled as association lists with
insertion-order semantics: updating an existing key rewrites the value
in place, a fresh key is appended at the end), the pure data-merging
functions of `import_all_data`, the id-allocation rules, the edit
commands, and the read-evaluate-print loop of `main` as an explicit
state machine over an input script.

Modelling conventions:
* machine text is ASCII here, so `lower` / `upper` / `title` are the
  ASCII case maps (Python's methods agree with these on ASCII input);
* wall-clock timestamps are cosmetic in every claim considered and are
  elided from history records; the "today" date string used when a log
  entry is prefixed with a date is an abstract constant of the state;
* terminal output is elided, except that each `print_error` call site
  appends a recognisable tag to an `errLog` field so that error
  reporting is observable;
* file writes of the four JSON stores go through a save oracle that
  says which stores are writable; a failing save raises, mirroring the
  re-raise in `save_json_file`.
-/

namespace PlateCore

/-! ### Python string primitives (ASCII) -/

/-- Python `str.lower()` on ASCII text: character-wise lower-casing. -/
def pyLower (s : String) : String := String.mk (s.data.map Char.toLower)

/-- Python `str.upper()` on ASCII text: character-wise upper-casing. -/
def pyUpper (s : String) : String := String.mk (s.data.map Char.toUpper)

/-- Python `str.strip()` with no argument: remove leading and trailing
whitespace (for the ASCII text handled here: space, tab, carriage
return, newline). -/
def pyStrip (s : String) : String :=
  String.mk
    (((s.data.dropWhile Char.isWhitespace).reverse.dropWhile
        Char.isWhitespace).reverse)

/-- One step of Python `str.title()`: a cased character is upper-cased
when the previous character was not alphabetic, lower-cased otherwise. -/
def pyTitleAux : Bool → List Char → List Char
  | _, [] => []
  | prevAlpha, c :: cs =>
    if c.isAlpha then
      (if prevAlpha then c.toLower else c.toUpper) :: pyTitleAux true cs
    else
      c :: pyTitleAux false cs

/-- Python `str.title()` on ASCII text. -/
def pyTitle (s : String) : String := String.mk (pyTitleAux false s.data)

/-- Helper for `pySplitSpace`: break a character list at the first
space character, returning the part before and the part after it. -/
def breakAtSpace : List Char → Option (List Char × List Char)
  | [] => none
  | c :: cs =>
    if c = ' ' then some ([], cs)
    else match breakAtSpace cs with
      | none => none
      | some (a, b) => some (c :: a, b)

/-- Python `s.split(" ", maxsplit)`: split on single space characters,
at most `maxsplit` times (consecutive spaces produce empty fields; an
input with no space is returned whole, so `"".split(" ", n) = [""]`). -/
def pySplitSpace (maxsplit : Nat) (s : String) : List String :=
  go maxsplit s.data
where
  go : Nat → List Char → List String
    | 0, cs => [String.mk cs]
    | n + 1, cs =>
      match breakAtSpace cs with
      | none => [String.mk cs]
      | some (a, b) => String.mk a :: go n b

/-- Python `int(s)`: optional surrounding whitespace, an optional sign,
then at least one decimal digit.  (Python's digit-group underscores are
not used anywhere by the program and are not modelled.) -/
def pyParseInt (s : String) : Option Int :=
  let t := (pyStrip s).data
  match t with
  | '-' :: ds => (digits? ds).map (fun n => -(n : Int))
  | '+' :: ds => (digits? ds).map (fun n => (n : Int))
  | ds => (digits? ds).map (fun n => (n : Int))
where
  digits? (ds : List Char) : Option Nat :=
    if ds = [] then none
    else if ds.all Char.isDigit then
      some (ds.foldl (fun acc c => acc * 10 + (c.toNat - '0'.toNat)) 0)
    else none

/-! ### Python dictionaries as association lists

A Python `dict` keeps keys unique and remembers insertion order:
assigning to an existing key replaces the value in place, assigning to
a fresh key appends it at the end.  We model a dict as a `List (κ × α)`
whose well-formedness invariant is that the key list has no
duplicates. -/

/-- Membership `k in d` for a Python dict. -/
def dictContains [BEq κ] (d : List (κ × α)) (k : κ) : Bool :=
  d.any (fun p => p.1 == k)

/-- Lookup `d.get(k)` / `d[k]`. -/
def dictGet? [BEq κ] (d : List (κ × α)) (k : κ) : Option α :=
  (d.find? (fun p => p.1 == k)).map (fun p => p.2)

/-- Assignment `d[k] = v`: replace in place when the key exists, append otherwise. -/
def dictInsert [BEq κ] (d : List (κ × α)) (k : κ) (v : α) : List (κ × α) :=
  if dictContains d k then
    d.map (fun p => if p.1 == k then (p.1, v) else p)
  else d ++ [(k, v)]

/-- Assignment `d[k] = f d[k]`: rewrite the value stored under an existing key. -/
def dictUpdate [BEq κ] (d : List (κ × α)) (k : κ) (f : α → α) : List (κ × α) :=
  d.map (fun p => if p.1 == k then (p.1, f p.2) else p)

/-- Deletion `del d[k]` (tolerant: no-op when absent). -/
def dictErase [BEq κ] (d : List (κ × α)) (k : κ) : List (κ × α) :=
  d.filter (fun p => !(p.1 == k))

/-! ### Data model -/

/-- A journal entry: the ordered lines of text (`stories[id]`). -/
abbrev LogEntry := List String

/-- The `CB` profile field: an integer, or the `"N/A"` sentinel (`none`). -/
abbrev CBValue := Option Int

/-- A person profile record (`profiles[id]`). -/
structure Profile where
  name : String
  id : String
  role : String
  ic : String
  pn : String
  cb : CBValue
  deriving Repr, DecidableEq

/-- A task record inside a project's `"Tasks"` list. -/
structure Task where
  taskID : String
  description : String
  assignedTo : String
  status : String
  deriving Repr, DecidableEq

/-- A project record (`projects[id]`). -/
structure Project where
  name : String
  description : String
  status : String
  dueDate : String
  tasks : List Task
  deriving Repr, DecidableEq

/-- A session-history record; the three timestamp fields of the source
are wall-clock strings and are elided (no claim depends on them). -/
structure HistoryEntry where
  userId : String
  eventType : String
  deriving Repr, DecidableEq

abbrev ProfilesMap := List (String × Profile)
abbrev LogsMap := List (Int × LogEntry)
abbrev ProjectsMap := List (String × Project)

/-! ### Keyed merge folds

Both task reconciliation and project reconciliation in
`import_all_data` iterate over an imported collection and, for each
record, either rewrite the record stored under the same key in place
or append the record at the end.  `dictFold` is that loop, generic in
the key function and in what "rewrite in place" does to the stored
record (`comb old new`). -/

section DictFold

variable {κ α : Type*} [BEq κ] [LawfulBEq κ]

/-- One iteration of the reconciliation loop: rewrite in place when
the key is already present, append otherwise. -/
def dictFoldStep (key : α → κ) (comb : α → α → α) (m : List α) (x : α) : List α :=
  if m.any (fun y => key y == key x) then
    m.map (fun y => if key y == key x then comb y x else y)
  else m ++ [x]

/-- Reconcile every record of `xs` into `init`, left to right. -/
def dictFold (key : α → κ) (comb : α → α → α) (init : List α) (xs : List α) : List α :=
  xs.foldl (dictFoldStep key comb) init

/-- What a record of the initial collection becomes after the loop:
combined with the (unique) imported record of the same key, if any. -/
def mergeOverride (key : α → κ) (comb : α → α → α) (I : List α) (t : α) : α :=
  ((I.find? (fun u => key u == key t)).map (fun u => comb t u)).getD t

/-- The imported records whose keys are fresh with respect to `L`. -/
def mergeFresh (key : α → κ) (L I : List α) : List α :=
  I.filter (fun u => !(L.any (fun t => key t == key u)))

theorem any_key_eq_of_map_eq (key : α → κ) {L M : List α}
    (h : L.map key = M.map key) (k : κ) :
    L.any (fun t => key t == k) = M.any (fun t => key t == k) := by
  have haux : ∀ (N : List α),
      (N.any (fun t => key t == k) = true) ↔ k ∈ N.map key := by
    intro N
    rw [List.any_eq_true]
    constructor
    · rintro ⟨t, ht, hk⟩
      have hk' : key t = k := by simpa using hk
      exact hk' ▸ List.mem_map_of_mem key ht
    · intro hm
      rcases List.mem_map.mp hm with ⟨t, ht, hk⟩
      exact ⟨t, ht, by simpa using hk⟩
  apply Bool.eq_iff_iff.mpr
  rw [haux L, haux M, h]

theorem dictFoldStep_keys_hit (key : α → κ) (comb : α → α → α)
    (hcomb : ∀ a b, key a = key b → key (comb a b) = key a) (m : List α) (x : α)
    (h : m.any (fun y => key y == key x) = true) :
    (dictFoldStep key comb m x).map key = m.map key := by
  rw [dictFoldStep, if_pos h, List.map_map]
  apply List.map_congr_left
  intro t _
  simp only [Function.comp_apply]
  by_cases hk : key t = key x
  · rw [if_pos (beq_iff_eq.mpr hk)]
    exact hcomb t x hk
  · rw [if_neg (by simp [hk])]

/-- The reconciliation loop characterised: every initial record stays
at its position (rewritten by the matching imported record, if one
exists), and the imported records with fresh keys are appended at the
end in their snapshot order.  Requires the key lists of both sides to
be duplicate-free, which is the dictionary invariant of the source. -/
theorem dictFold_eq (key : α → κ) (comb : α → α → α)
    (hcomb : ∀ a b, key a = key b → key (comb a b) = key a) :
    ∀ (I L : List α), (L.map key).Nodup → (I.map key).Nodup →
      dictFold key comb L I
        = L.map (mergeOverride key comb I) ++ mergeFresh key L I := by
  intro I
  induction I with
  | nil =>
    intro L _ _
    have hmapid : List.map (mergeOverride key comb ([] : List α)) L = L := by
      rw [show mergeOverride key comb ([] : List α) = id from
        funext fun t => by simp [mergeOverride]]
      exact List.map_id L
    simp [dictFold, mergeFresh, hmapid]
  | cons u I ih =>
    intro L hL hI
    have hI' : (key u :: I.map key).Nodup := by simpa using hI
    have hIu : key u ∉ I.map key := (List.nodup_cons.mp hI').1
    have hInd : (I.map key).Nodup := by simpa using (List.nodup_cons.mp hI').2
    have hfold : dictFold key comb L (u :: I)
        = dictFold key comb (dictFoldStep key comb L u) I := rfl
    have hfindu : I.find? (fun v => key v == key u) = none := by
      rw [List.find?_eq_none]
      intro v hv hvu
      exact hIu (by
        have hvu' : key v = key u := by simpa using hvu
        exact hvu' ▸ List.mem_map_of_mem key hv)
    by_cases h : L.any (fun y => key y == key u) = true
    · -- the imported record u rewrites an existing record in place
      have hkeys : (dictFoldStep key comb L u).map key = L.map key :=
        dictFoldStep_keys_hit key comb hcomb L u h
      have hL1 : ((dictFoldStep key comb L u).map key).Nodup := by
        rw [hkeys]; exact hL
      rw [hfold, ih _ hL1 hInd]
      have hmap : (dictFoldStep key comb L u).map (mergeOverride key comb I)
          = L.map (mergeOverride key comb (u :: I)) := by
        rw [dictFoldStep, if_pos h, List.map_map]
        apply List.map_congr_left
        intro t _
        simp only [Function.comp_apply]
        by_cases hk : key t = key u
        · rw [if_pos (by simpa using hk)]
          have hkc : key (comb t u) = key t := hcomb t u hk
          have hfind1 : I.find? (fun v => key v == key (comb t u)) = none := by
            rw [show (fun v => key v == key (comb t u))
                  = (fun v => key v == key u) from by
                funext v; rw [hkc, hk]]
            exact hfindu
          have hfind2 : (u :: I).find? (fun v => key v == key t) = some u :=
            List.find?_cons_of_pos _ (by simpa using hk.symm)
          rw [mergeOverride, mergeOverride, hfind1, hfind2]
          simp
        · rw [if_neg (by simpa using hk)]
          have hfc : (u :: I).find? (fun v => key v == key t)
              = I.find? (fun v => key v == key t) :=
            List.find?_cons_of_neg _ (by simpa using fun hh => hk hh.symm)
          rw [mergeOverride, mergeOverride, hfc]
      have hfresh1 : mergeFresh key (dictFoldStep key comb L u) I
          = mergeFresh key L I := by
        unfold mergeFresh
        apply List.filter_congr
        intro v _
        rw [any_key_eq_of_map_eq key hkeys]
      have hfresh2 : mergeFresh key L (u :: I) = mergeFresh key L I := by
        unfold mergeFresh
        rw [List.filter_cons_of_neg (by simp [h])]
      rw [hmap, hfresh1, hfresh2]
    · -- the imported record u has a fresh key and is appended
      have hnm : key u ∉ L.map key := by
        intro hm
        rcases List.mem_map.mp hm with ⟨t, ht, hkt⟩
        exact h (List.any_eq_true.mpr ⟨t, ht, by simpa using hkt⟩)
      have hstep : dictFoldStep key comb L u = L ++ [u] := by
        rw [dictFoldStep, if_neg (by simpa using h)]
      have hL2 : ((L ++ [u]).map key).Nodup := by
        rw [List.map_append]
        refine List.Nodup.append hL (by simp) ?_
        intro c hc hcu
        simp only [List.map_cons, List.map_nil, List.mem_cons,
          List.not_mem_nil, or_false] at hcu
        exact hnm (hcu ▸ hc)
      rw [hfold, hstep, ih _ hL2 hInd, List.map_append]
      simp only [List.map_cons, List.map_nil]
      have hou : mergeOverride key comb I u = u := by
        rw [mergeOverride, hfindu]
        simp
      have hmap : L.map (mergeOverride key comb I)
          = L.map (mergeOverride key comb (u :: I)) := by
        apply List.map_congr_left
        intro t ht
        have hk : ¬ key t = key u := by
          intro hk
          exact hnm (hk ▸ List.mem_map_of_mem key ht)
        have hfc : (u :: I).find? (fun v => key v == key t)
            = I.find? (fun v => key v == key t) :=
          List.find?_cons_of_neg _ (by simpa using fun hh => hk hh.symm)
        rw [mergeOverride, mergeOverride, hfc]
      have hfresh1 : mergeFresh key (L ++ [u]) I = mergeFresh key L I := by
        unfold mergeFresh
        apply List.filter_congr
        intro v hv
        have hkuv : ¬ key u = key v := by
          intro hk
          exact hIu (hk ▸ List.mem_map_of_mem key hv)
        simp [List.any_append, hkuv]
      have hfresh2 : mergeFresh key L (u :: I) = u :: mergeFresh key L I := by
        unfold mergeFresh
        rw [List.filter_cons_of_pos (by simp [h])]
      rw [hou, hmap, hfresh1, hfresh2]
      simp [List.map_cons, List.append_assoc]

/-- Reconciliation never creates a duplicate key, whatever the initial
collection and the imported records are. -/
theorem dictFold_nodup (key : α → κ) (comb : α → α → α)
    (hcomb : ∀ a b, key a = key b → key (comb a b) = key a) :
    ∀ (xs m : List α), (m.map key).Nodup → ((dictFold key comb m xs).map key).Nodup := by
  intro xs
  induction xs with
  | nil => intro m hm; exact hm
  | cons x xs ih =>
    intro m hm
    have hfold : dictFold key comb m (x :: xs)
        = dictFold key comb (dictFoldStep key comb m x) xs := rfl
    rw [hfold]
    apply ih
    by_cases h : m.any (fun y => key y == key x) = true
    · rw [dictFoldStep_keys_hit key comb hcomb m x h]; exact hm
    · rw [dictFoldStep, if_neg (by simpa using h), List.map_append]
      refine List.Nodup.append hm (by simp) ?_
      intro c hc hcx
      simp only [List.map_cons, List.map_nil, List.mem_cons,
        List.not_mem_nil, or_false] at hcx
      rcases List.mem_map.mp (hcx ▸ hc) with ⟨t, ht, hkt⟩
      exact h (List.any_eq_true.mpr ⟨t, ht, by simpa using hkt⟩)

end DictFold

/-- The function `find?` only depends on the pointwise behaviour of its predicate. -/
theorem find?_congr_list {β : Type*} {p q : β → Bool} :
    ∀ {l : List β}, (∀ x ∈ l, p x = q x) → l.find? p = l.find? q := by
  intro l
  induction l with
  | nil => intro _; rfl
  | cons b l ih =>
    intro h
    by_cases hb : p b = true
    · rw [List.find?_cons_of_pos _ hb,
        List.find?_cons_of_pos _ (by rw [← h b (by simp)]; exact hb)]
    · rw [List.find?_cons_of_neg _ hb,
        List.find?_cons_of_neg _ (by rw [← h b (by simp)]; exact hb),
        ih (fun x hx => h x (by simp [hx]))]

/-- Looking a key up in a dict ignores entries appended after it. -/
theorem dictGet?_append_left {κ α : Type*} [BEq κ] (B : List (κ × α)) (k : κ) :
    ∀ (A : List (κ × α)), dictContains A k = true →
      dictGet? (A ++ B) k = dictGet? A k := by
  intro A
  induction A with
  | nil => intro h; simp [dictContains] at h
  | cons p A ih =>
    intro h
    by_cases hp : (p.1 == k) = true
    · rw [dictGet?, dictGet?, List.cons_append,
        List.find?_cons_of_pos (A ++ B)
          (show (fun q : κ × α => q.1 == k) p = true from hp),
        List.find?_cons_of_pos A
          (show (fun q : κ × α => q.1 == k) p = true from hp)]
    · have h' : dictContains A k = true := by
        rw [dictContains, List.any_cons] at h
        rcases Bool.or_eq_true_iff.mp h with h1 | h1
        · exact absurd h1 hp
        · exact h1
      rw [dictGet?, dictGet?, List.cons_append,
        List.find?_cons_of_neg (A ++ B)
          (show ¬ (fun q : κ × α => q.1 == k) p = true from hp),
        List.find?_cons_of_neg A
          (show ¬ (fun q : κ × α => q.1 == k) p = true from hp)]
      exact ih h'

/-! ### Reconciliation engine: `import_all_data` (core.py lines 485-577)

The pure data part of the import: for each of the four collections the
loop body applied to in-memory data.  The surrounding file handling and
the interleaved saves are modelled with the command loop further down
and reuse these definitions. -/

/-- Lines 507-513 (profiles) and 521-527 (logs): an imported entry
whose id already exists locally is skipped entirely (local wins); a new
id is appended by plain dict assignment. -/
def importSkipExisting {κ α : Type*} [BEq κ] (cur imported : List (κ × α)) :
    List (κ × α) :=
  imported.foldl (fun acc kv => if dictContains acc kv.1 then acc else acc ++ [kv]) cur

/-- Line 539: `current_tasks_map = {t.get("TaskID"): t for t in tasks}`.
A dict comprehension is a fold of dict assignment over the list; since
each record's key is its own `TaskID` field (tasks are modelled as
fully-populated records, per the data model), the map is represented as
the list of its task values, keyed by `Task.taskID`. -/
def buildTasksMap (ts : List Task) : List Task :=
  ts.foldl (dictFoldStep Task.taskID (fun _ v => v)) []

/-- Lines 542-551: one imported task processed into the map.  When its
TaskID is truthy and already present,
`current_tasks_map[imported_task_id].update(imported_task)` overwrites
every stored field with the imported record's fields — since both
records carry exactly the four task fields this replaces the stored
record; otherwise the plain dict assignment
`current_tasks_map[imported_task_id] = imported_task` replaces in place
when the key is present and appends when it is fresh. -/
def importTaskStep (m : List Task) (t : Task) : List Task :=
  if t.taskID != "" && m.any (fun u => u.taskID == t.taskID) then
    m.map (fun u => if u.taskID == t.taskID then t else u)
  else
    dictFoldStep Task.taskID (fun _ v => v) m t

/-- Both branches of `importTaskStep` replace in place on a present key
and append on a fresh one, so the truthiness test is immaterial at
record granularity. -/
theorem importTaskStep_eq (m : List Task) (t : Task) :
    importTaskStep m t = dictFoldStep Task.taskID (fun _ v => v) m t := by
  unfold importTaskStep dictFoldStep
  by_cases h : (m.any fun u => u.taskID == t.taskID) = true
  · by_cases h2 : (t.taskID != "") = true <;> simp [h, h2]
  · simp [h]

/-- Lines 539-552: reconcile the imported task list of an existing
project into its local task list (`list(current_tasks_map.values())`). -/
def mergeTasks (curTasks importedTasks : List Task) : List Task :=
  importedTasks.foldl importTaskStep (buildTasksMap curTasks)

/-- Lines 535-552: an existing project keeps every header field; only
its `"Tasks"` value is reassigned to the reconciled list. -/
def mergeProjectExisting (cur imported : Project) : Project :=
  { cur with tasks := mergeTasks cur.tasks imported.tasks }

/-- Lines 533-555: the project-collection merge.  An existing project
id keeps its record with reconciled tasks (in-place value update of the
dict entry); a fresh id is appended wholesale. -/
def importProjects (cur snap : ProjectsMap) : ProjectsMap :=
  dictFold Prod.fst (fun p q => (p.1, mergeProjectExisting p.2 q.2)) cur snap

/-- Lines 562-569: session-history entries are appended unless an
entry with exactly identical field values is already present. -/
def importHistory (cur imported : List HistoryEntry) : List HistoryEntry :=
  imported.foldl (fun acc e => if e ∈ acc then acc else acc ++ [e]) cur

/-- The four persisted collections (an in-memory or on-disk image). -/
structure Stores where
  profiles : ProfilesMap
  logs : LogsMap
  projects : ProjectsMap
  history : List HistoryEntry
  deriving Repr, DecidableEq

/-- A parsed import snapshot has the same four collections (§6 of the
spec: shape identical to the union of the four stores). -/
abbrev Snapshot := Stores

/-- The pure data content of a fully successful `import_all_data` run:
each collection merged under its policy. -/
def importAllStores (S snap : Stores) : Stores :=
  { profiles := importSkipExisting S.profiles snap.profiles
    logs := importSkipExisting S.logs snap.logs
    projects := importProjects S.projects snap.projects
    history := importHistory S.history snap.history }

/-- The function `mergeTasks` is the keyed reconciliation fold. -/
theorem mergeTasks_eq_dictFold (L I : List Task) :
    mergeTasks L I = dictFold Task.taskID (fun _ v => v) (buildTasksMap L) I := by
  rw [mergeTasks, dictFold,
    show importTaskStep = dictFoldStep Task.taskID (fun _ v => v) from
      funext fun m => funext fun t => importTaskStep_eq m t]

/-- Building the task map over a duplicate-free task list returns the
list unchanged. -/
theorem buildTasksMap_eq_self (L : List Task)
    (hL : (L.map Task.taskID).Nodup) : buildTasksMap L = L := by
  have h := dictFold_eq Task.taskID (fun _ v => v)
    (fun a b hab => hab.symm) L [] (by simp) hL
  rw [buildTasksMap, show L.foldl (dictFoldStep Task.taskID fun _ v => v) []
      = dictFold Task.taskID (fun _ v => v) [] L from rfl, h]
  simp [mergeFresh]

/-- Task-level merge characterisation: local tasks keep their
positions, a local task with an imported namesake takes the imported
record's fields, imported tasks with fresh ids are appended in order. -/
theorem mergeTasks_char (L I : List Task)
    (hL : (L.map Task.taskID).Nodup) (hI : (I.map Task.taskID).Nodup) :
    mergeTasks L I
      = L.map (fun t => ((I.find? (fun u => u.taskID == t.taskID)).getD t))
        ++ I.filter (fun u => !(L.any (fun t => t.taskID == u.taskID))) := by
  rw [mergeTasks_eq_dictFold, buildTasksMap_eq_self L hL,
    dictFold_eq Task.taskID (fun _ v => v) (fun a b hab => hab.symm) I L hL hI]
  congr 1
  apply List.map_congr_left
  intro t _
  cases h : I.find? (fun u => u.taskID == t.taskID) <;> simp [mergeOverride, h]

/-- The function `mergeOverride` never changes a record's key. -/
theorem key_mergeOverride {κ α : Type*} [BEq κ] [LawfulBEq κ]
    (key : α → κ) (comb : α → α → α)
    (hcomb : ∀ a b, key a = key b → key (comb a b) = key a)
    (I : List α) (t : α) :
    key (mergeOverride key comb I t) = key t := by
  unfold mergeOverride
  cases h : I.find? (fun u => key u == key t) with
  | none => simp
  | some u =>
    simp only [Option.map_some', Option.getD_some]
    exact hcomb t u (show key u = key t by
      have hu := List.find?_some h
      simpa using (show (key u == key t) = true from hu)).symm

/-- C1: Import merge precedence for projects.  For every import of a
snapshot containing a project whose id already exists locally, after
the import that project's header fields (Name, Description, Status,
DueDate) are unchanged, every imported task whose TaskID already
exists in the local project has its fields overwritten by the imported
task's fields (the local slot now holds exactly the imported record),
and every imported task whose TaskID is not present locally is
appended to the project's task list.  The id lists carry the
collection invariant that ids are unique (§3 of the spec; project keys
come from a JSON object, which cannot hold duplicate keys). -/
theorem import_merge_precedence
    (ps snap : ProjectsMap) (pid : String) (P Q : Project)
    (hget : dictGet? ps pid = some P)
    (hsget : dictGet? snap pid = some Q)
    (hpk : (ps.map Prod.fst).Nodup)
    (hsk : (snap.map Prod.fst).Nodup)
    (hlt : (P.tasks.map Task.taskID).Nodup)
    (hqt : (Q.tasks.map Task.taskID).Nodup) :
    dictGet? (importProjects ps snap) pid
      = some { P with tasks :=
          (P.tasks.map
              (fun t => ((Q.tasks.find? (fun u => u.taskID == t.taskID)).getD t))
            ++ Q.tasks.filter
              (fun u => !(P.tasks.any (fun t => t.taskID == u.taskID)))) } := by
  obtain ⟨pr, hfind, hpr2⟩ :
      ∃ pr, ps.find? (fun q => q.1 == pid) = some pr ∧ pr.2 = P := by
    rw [dictGet?] at hget
    rcases Option.map_eq_some'.mp hget with ⟨pr, h1, h2⟩
    exact ⟨pr, h1, h2⟩
  have hpr1 : pr.1 = pid := by
    have h1 := List.find?_some hfind
    simpa using h1
  obtain ⟨qr, hsfind, hqr2⟩ :
      ∃ qr, snap.find? (fun q => q.1 == pid) = some qr ∧ qr.2 = Q := by
    rw [dictGet?] at hsget
    rcases Option.map_eq_some'.mp hsget with ⟨qr, h1, h2⟩
    exact ⟨qr, h1, h2⟩
  have hchar := dictFold_eq Prod.fst
    (fun p q => (p.1, mergeProjectExisting p.2 q.2))
    (fun _ _ _ => rfl) snap ps hpk hsk
  have hkeep : ∀ pr1,
      (mergeOverride Prod.fst
        (fun p q => (p.1, mergeProjectExisting p.2 q.2)) snap pr1).1 = pr1.1 :=
    fun pr1 => key_mergeOverride Prod.fst
      (fun p q => (p.1, mergeProjectExisting p.2 q.2))
      (fun _ _ _ => rfl) snap pr1
  rw [importProjects, hchar,
    dictGet?_append_left _ pid _ (by
      rw [dictContains, List.any_eq_true]
      exact ⟨mergeOverride Prod.fst
          (fun p q => (p.1, mergeProjectExisting p.2 q.2)) snap pr,
        List.mem_map_of_mem _ (List.mem_of_find?_eq_some hfind),
        by simp [hkeep pr, hpr1]⟩),
    dictGet?, List.find?_map]
  have hpred : ∀ x ∈ ps,
      ((fun q : String × Project => q.1 == pid) ∘
        mergeOverride Prod.fst
          (fun p q => (p.1, mergeProjectExisting p.2 q.2)) snap) x
      = (fun q : String × Project => q.1 == pid) x := by
    intro x _
    simp [Function.comp_apply, hkeep x]
  rw [find?_congr_list hpred, hfind]
  have hov : mergeOverride Prod.fst
      (fun p q => (p.1, mergeProjectExisting p.2 q.2)) snap pr
      = (pr.1, mergeProjectExisting P Q) := by
    unfold mergeOverride
    have : snap.find? (fun u => u.1 == pr.1) = some qr := by
      rw [show (fun u : String × Project => u.1 == pr.1)
          = (fun u : String × Project => u.1 == pid) from by
        funext u; rw [hpr1]]
      exact hsfind
    rw [this]
    simp [hpr2, hqr2]
  rw [Option.map_some', hov, Option.map_some']
  rw [mergeProjectExisting, mergeTasks_char P.tasks Q.tasks hlt hqt]

/-- Concrete local project for the C1 witness. -/
def c1LocalP : Project :=
  { name := "Phase 1", description := "local", status := "Active",
    dueDate := "2025-08-15",
    tasks := [{ taskID := "T-1", description := "a",
                assignedTo := "Z-1", status := "Pending" },
              { taskID := "T-2", description := "b",
                assignedTo := "Unassigned", status := "Pending" }] }

/-- Concrete imported project for the C1 witness: different header
fields, task `T-1` marked Complete, fresh task `T-3`. -/
def c1ImportedQ : Project :=
  { name := "Other", description := "imported", status := "On Hold",
    dueDate := "2026-01-01",
    tasks := [{ taskID := "T-1", description := "a2",
                assignedTo := "Z-1", status := "Complete" },
              { taskID := "T-3", description := "c",
                assignedTo := "Unassigned", status := "Pending" }] }

/-- Witness for C1 at a concrete store and snapshot: after import the
header fields are the local ones, `T-1` holds the imported record,
`T-2` is untouched and `T-3` is appended at the end. -/
theorem import_merge_precedence_witness :
    dictGet? (importProjects [("PROJ-001", c1LocalP)] [("PROJ-001", c1ImportedQ)])
      "PROJ-001"
      = some
        { name := "Phase 1", description := "local", status := "Active",
          dueDate := "2025-08-15",
          tasks := [{ taskID := "T-1", description := "a2",
                      assignedTo := "Z-1", status := "Complete" },
                    { taskID := "T-2", description := "b",
                      assignedTo := "Unassigned", status := "Pending" },
                    { taskID := "T-3", description := "c",
                      assignedTo := "Unassigned", status := "Pending" }] } :=
  (import_merge_precedence [("PROJ-001", c1LocalP)] [("PROJ-001", c1ImportedQ)]
    "PROJ-001" c1LocalP c1ImportedQ (by decide) (by decide) (by decide)
    (by decide) (by decide) (by decide)).trans (by decide)

/-! ### Idempotence lemmas for the four merge policies -/

section SkipMerge

variable {κ α : Type*} [BEq κ] [LawfulBEq κ]

theorem importSkipExisting_mono (imported : List (κ × α)) :
    ∀ (cur : List (κ × α)) (k : κ), dictContains cur k = true →
      dictContains (importSkipExisting cur imported) k = true := by
  induction imported with
  | nil => intro cur k h; exact h
  | cons kv rest ih =>
    intro cur k h
    have hstep : importSkipExisting cur (kv :: rest)
        = importSkipExisting
            (if dictContains cur kv.1 then cur else cur ++ [kv]) rest := rfl
    rw [hstep]
    apply ih
    by_cases hc : dictContains cur kv.1 = true
    · rw [if_pos hc]; exact h
    · rw [if_neg hc, dictContains, List.any_append]
      rw [dictContains] at h
      simp [h]

theorem importSkipExisting_present (imported : List (κ × α)) :
    ∀ (cur : List (κ × α)), ∀ kv ∈ imported,
      dictContains (importSkipExisting cur imported) kv.1 = true := by
  induction imported with
  | nil => intro cur kv h; simp at h
  | cons kv0 rest ih =>
    intro cur kv h
    have hstep : importSkipExisting cur (kv0 :: rest)
        = importSkipExisting
            (if dictContains cur kv0.1 then cur else cur ++ [kv0]) rest := rfl
    rcases List.mem_cons.mp h with h1 | h1
    · subst h1
      rw [hstep]
      apply importSkipExisting_mono
      by_cases hc : dictContains cur kv.1 = true
      · rw [if_pos hc]; exact hc
      · rw [if_neg hc, dictContains, List.any_append]
        simp
    · rw [hstep]; exact ih _ kv h1

theorem importSkipExisting_absorb (imported : List (κ × α)) :
    ∀ (acc : List (κ × α)), (∀ kv ∈ imported, dictContains acc kv.1 = true) →
      importSkipExisting acc imported = acc := by
  induction imported with
  | nil => intro acc _; rfl
  | cons kv rest ih =>
    intro acc h
    have hstep : importSkipExisting acc (kv :: rest)
        = importSkipExisting
            (if dictContains acc kv.1 then acc else acc ++ [kv]) rest := rfl
    rw [hstep, if_pos (h kv (by simp))]
    exact ih acc (fun kv2 h2 => h kv2 (by simp [h2]))

/-- Re-importing the same entries a second time adds nothing under the
skip-if-present policy. -/
theorem importSkipExisting_idem (cur imported : List (κ × α)) :
    importSkipExisting (importSkipExisting cur imported) imported
      = importSkipExisting cur imported :=
  importSkipExisting_absorb imported _
    (fun kv h => importSkipExisting_present imported cur kv h)

end SkipMerge

theorem importHistory_mono (imported : List HistoryEntry) :
    ∀ (cur : List HistoryEntry) (e : HistoryEntry), e ∈ cur →
      e ∈ importHistory cur imported := by
  induction imported with
  | nil => intro cur e h; exact h
  | cons e0 rest ih =>
    intro cur e h
    have hstep : importHistory cur (e0 :: rest)
        = importHistory (if e0 ∈ cur then cur else cur ++ [e0]) rest := rfl
    rw [hstep]
    apply ih
    by_cases hc : e0 ∈ cur
    · rw [if_pos hc]; exact h
    · rw [if_neg hc]; exact List.mem_append_left _ h

theorem importHistory_present (imported : List HistoryEntry) :
    ∀ (cur : List HistoryEntry), ∀ e ∈ imported, e ∈ importHistory cur imported := by
  induction imported with
  | nil => intro cur e h; simp at h
  | cons e0 rest ih =>
    intro cur e h
    have hstep : importHistory cur (e0 :: rest)
        = importHistory (if e0 ∈ cur then cur else cur ++ [e0]) rest := rfl
    rcases List.mem_cons.mp h with h1 | h1
    · subst h1
      rw [hstep]
      apply importHistory_mono
      by_cases hc : e ∈ cur
      · rw [if_pos hc]; exact hc
      · rw [if_neg hc]; exact List.mem_append_right _ (by simp)
    · rw [hstep]; exact ih _ e h1

theorem importHistory_absorb (imported : List HistoryEntry) :
    ∀ (acc : List HistoryEntry), (∀ e ∈ imported, e ∈ acc) →
      importHistory acc imported = acc := by
  induction imported with
  | nil => intro acc _; rfl
  | cons e rest ih =>
    intro acc h
    have hstep : importHistory acc (e :: rest)
        = importHistory (if e ∈ acc then acc else acc ++ [e]) rest := rfl
    rw [hstep, if_pos (h e (by simp))]
    exact ih acc (fun e2 h2 => h e2 (by simp [h2]))

/-- Re-importing the same history entries a second time appends
nothing, by exact-duplicate suppression. -/
theorem importHistory_idem (cur imported : List HistoryEntry) :
    importHistory (importHistory cur imported) imported
      = importHistory cur imported :=
  importHistory_absorb imported _
    (fun e h => importHistory_present imported cur e h)

/-- With duplicate-free keys, `find?` at a member's key returns that
member. -/
theorem find?_key_self {β κ : Type*} [BEq κ] [LawfulBEq κ]
    (key : β → κ) (l : List β) (hl : (l.map key).Nodup)
    (y : β) (hy : y ∈ l) :
    l.find? (fun v => key v == key y) = some y := by
  cases h : l.find? (fun v => key v == key y) with
  | none =>
    exfalso
    rw [List.find?_eq_none] at h
    exact h y hy (by simp)
  | some v =>
    have hv := List.mem_of_find?_eq_some h
    have hk : key v = key y := by
      have hp := List.find?_some h
      simpa using hp
    rw [List.inj_on_of_nodup_map hl hv hy hk]

theorem buildTasksMap_nodup (L : List Task) :
    ((buildTasksMap L).map Task.taskID).Nodup :=
  dictFold_nodup Task.taskID (fun _ v => v) (fun _ _ hab => hab.symm) L [] (by simp)

theorem mergeTasks_nodup (L I : List Task) :
    ((mergeTasks L I).map Task.taskID).Nodup := by
  rw [mergeTasks_eq_dictFold]
  exact dictFold_nodup Task.taskID (fun _ v => v) (fun _ _ hab => hab.symm) I _
    (buildTasksMap_nodup L)

/-- The slot override of the task merge keeps the TaskID. -/
theorem override_taskID (I : List Task) (t : Task) :
    ((I.find? (fun u => u.taskID == t.taskID)).getD t).taskID = t.taskID := by
  cases h : I.find? (fun u => u.taskID == t.taskID) with
  | none => simp
  | some v =>
    have hp := List.find?_some h
    simpa using hp

/-- Task-merge characterisation relative to the deduplicated local map
(no assumption on the local list). -/
theorem mergeTasks_char' (L I : List Task) (hI : (I.map Task.taskID).Nodup) :
    mergeTasks L I
      = (buildTasksMap L).map
          (fun t => ((I.find? (fun u => u.taskID == t.taskID)).getD t))
        ++ I.filter
          (fun u => !((buildTasksMap L).any (fun t => t.taskID == u.taskID))) := by
  rw [mergeTasks_eq_dictFold,
    dictFold_eq Task.taskID (fun _ v => v) (fun _ _ hab => hab.symm) I
      (buildTasksMap L) (buildTasksMap_nodup L) hI]
  congr 1
  apply List.map_congr_left
  intro t _
  cases h : I.find? (fun u => u.taskID == t.taskID) <;> simp [mergeOverride, h]

/-- After merging, every imported TaskID is present in the result. -/
theorem mergeTasks_imported_key (L I : List Task)
    (hI : (I.map Task.taskID).Nodup) (u : Task) (hu : u ∈ I) :
    (mergeTasks L I).any (fun t => t.taskID == u.taskID) = true := by
  rw [mergeTasks_char' L I hI, List.any_append]
  by_cases hb : (buildTasksMap L).any (fun t => t.taskID == u.taskID) = true
  · have hkeys : ((buildTasksMap L).map
        (fun t => ((I.find? (fun v => v.taskID == t.taskID)).getD t))).map Task.taskID
        = (buildTasksMap L).map Task.taskID := by
      rw [List.map_map]
      apply List.map_congr_left
      intro t _
      simp only [Function.comp_apply]
      exact override_taskID I t
    rw [any_key_eq_of_map_eq Task.taskID hkeys, hb, Bool.true_or]
  · have hu2 : u ∈ I.filter
        (fun v => !((buildTasksMap L).any (fun t => t.taskID == v.taskID))) := by
      rw [List.mem_filter]
      exact ⟨hu, by simp [hb]⟩
    rw [Bool.or_eq_true_iff]
    right
    exact List.any_eq_true.mpr ⟨u, hu2, by simp⟩

/-- Merging an imported task list whose records are all already present
verbatim changes nothing. -/
theorem mergeTasks_absorb (T I : List Task)
    (hT : (T.map Task.taskID).Nodup) (hI : (I.map Task.taskID).Nodup)
    (hmem : ∀ u ∈ I, T.any (fun t => t.taskID == u.taskID) = true)
    (hval : ∀ u ∈ I, ∀ t ∈ T, t.taskID = u.taskID → t = u) :
    mergeTasks T I = T := by
  rw [mergeTasks_char T I hT hI]
  have hfil : I.filter (fun u => !(T.any (fun t => t.taskID == u.taskID))) = [] := by
    rw [List.filter_eq_nil_iff]
    intro u hu
    simp [hmem u hu]
  rw [hfil, List.append_nil]
  have hid : ∀ t ∈ T, (I.find? (fun u => u.taskID == t.taskID)).getD t = t := by
    intro t ht
    cases h : I.find? (fun u => u.taskID == t.taskID) with
    | none => simp
    | some u =>
      have hu : u ∈ I := List.mem_of_find?_eq_some h
      have hidk : u.taskID = t.taskID := by
        have hp := List.find?_some h
        simpa using hp
      have := hval u hu t ht hidk.symm
      simp [this]
  calc T.map (fun t => ((I.find? (fun u => u.taskID == t.taskID)).getD t))
      = T.map (fun t => t) := List.map_congr_left hid
    _ = T := by simp

/-- Merging a duplicate-free task list into itself changes nothing. -/
theorem mergeTasks_self (T : List Task) (hT : (T.map Task.taskID).Nodup) :
    mergeTasks T T = T :=
  mergeTasks_absorb T T hT hT
    (fun u hu => List.any_eq_true.mpr ⟨u, hu, by simp⟩)
    (fun u hu t ht hid => List.inj_on_of_nodup_map hT ht hu hid)

/-- Re-merging the same imported tasks a second time is absorbed. -/
theorem mergeTasks_idem (L Q : List Task) (hQ : (Q.map Task.taskID).Nodup) :
    mergeTasks (mergeTasks L Q) Q = mergeTasks L Q := by
  apply mergeTasks_absorb _ _ (mergeTasks_nodup L Q) hQ
  · intro u hu
    exact mergeTasks_imported_key L Q hQ u hu
  · intro u hu t ht hid
    rw [mergeTasks_char' L Q hQ] at ht
    rcases List.mem_append.mp ht with hm | hm
    · rcases List.mem_map.mp hm with ⟨b, _, ht2⟩
      cases h : Q.find? (fun v => v.taskID == b.taskID) with
      | none =>
        have ht3 : t = b := by rw [← ht2, h]; rfl
        exfalso
        rw [List.find?_eq_none] at h
        apply h u hu
        have : b.taskID = u.taskID := by rw [← ht3]; exact hid
        simp [this]
      | some v =>
        have hvQ : v ∈ Q := List.mem_of_find?_eq_some h
        have ht3 : t = v := by rw [← ht2, h]; rfl
        exact ht3.trans (List.inj_on_of_nodup_map hQ hvQ hu (ht3 ▸ hid))
    · have htQ : t ∈ Q := List.mem_of_mem_filter hm
      exact List.inj_on_of_nodup_map hQ htQ hu hid

/-- Re-reconciling the same imported project into an already-merged
record is absorbed. -/
theorem mergeProjectExisting_idem (P Q : Project)
    (hQ : (Q.tasks.map Task.taskID).Nodup) :
    mergeProjectExisting (mergeProjectExisting P Q) Q = mergeProjectExisting P Q := by
  unfold mergeProjectExisting
  rw [show ({ P with tasks := mergeTasks P.tasks Q.tasks } : Project).tasks
      = mergeTasks P.tasks Q.tasks from rfl,
    mergeTasks_idem P.tasks Q.tasks hQ]

/-- Reconciling a duplicate-free project into itself changes nothing. -/
theorem mergeProjectExisting_self (Q : Project)
    (hQ : (Q.tasks.map Task.taskID).Nodup) :
    mergeProjectExisting Q Q = Q := by
  unfold mergeProjectExisting
  rw [mergeTasks_self Q.tasks hQ]

/-- Re-importing the same project snapshot a second time changes no
project: every snapshot id is then present, and re-reconciling the
identical task lists is absorbed. -/
theorem importProjects_idem (cur snap : ProjectsMap)
    (hck : (cur.map Prod.fst).Nodup)
    (hsk : (snap.map Prod.fst).Nodup)
    (hst : ∀ kv ∈ snap, (((kv : String × Project).2.tasks.map Task.taskID)).Nodup) :
    importProjects (importProjects cur snap) snap = importProjects cur snap := by
  have hcomb : ∀ (a b : String × Project), a.1 = b.1 →
      ((fun p q : String × Project => (p.1, mergeProjectExisting p.2 q.2)) a b).1
        = a.1 := fun _ _ _ => rfl
  have hM : ((importProjects cur snap).map Prod.fst).Nodup :=
    dictFold_nodup Prod.fst _ hcomb snap cur hck
  have hchar1 := dictFold_eq Prod.fst
    (fun p q : String × Project => (p.1, mergeProjectExisting p.2 q.2))
    hcomb snap cur hck hsk
  have hchar2 := dictFold_eq Prod.fst
    (fun p q : String × Project => (p.1, mergeProjectExisting p.2 q.2))
    hcomb snap (importProjects cur snap) hM hsk
  have hkeep : ∀ y : String × Project,
      (mergeOverride Prod.fst
        (fun p q : String × Project => (p.1, mergeProjectExisting p.2 q.2))
        snap y).1 = y.1 :=
    fun y => key_mergeOverride Prod.fst _ hcomb snap y
  -- every snapshot key is present after the first import
  have hpresent : ∀ q ∈ snap,
      (importProjects cur snap).any (fun t => t.1 == q.1) = true := by
    intro q hq
    rw [importProjects, hchar1, List.any_append]
    by_cases hc : cur.any (fun t => t.1 == q.1) = true
    · rcases List.any_eq_true.mp hc with ⟨t, ht, htq⟩
      have hl : (cur.map (mergeOverride Prod.fst
          (fun p q : String × Project => (p.1, mergeProjectExisting p.2 q.2))
          snap)).any (fun t => t.1 == q.1) = true := by
        apply List.any_eq_true.mpr
        exact ⟨_, List.mem_map_of_mem _ ht, by simp only [hkeep t]; exact htq⟩
      rw [hl, Bool.true_or]
    · have hqf : q ∈ mergeFresh Prod.fst cur snap := by
        rw [mergeFresh, List.mem_filter]
        exact ⟨hq, by simp [hc]⟩
      rw [Bool.or_eq_true_iff]
      right
      exact List.any_eq_true.mpr ⟨q, hqf, by simp⟩
  -- the second pass leaves every stored record unchanged
  have hfix : ∀ y ∈ importProjects cur snap,
      mergeOverride Prod.fst
        (fun p q : String × Project => (p.1, mergeProjectExisting p.2 q.2))
        snap y = y := by
    intro y hy
    cases hfq : snap.find? (fun v => v.1 == y.1) with
    | none => rw [mergeOverride, hfq]; rfl
    | some q =>
      have hqsnap : q ∈ snap := List.mem_of_find?_eq_some hfq
      have habsorb : mergeProjectExisting y.2 q.2 = y.2 := by
        rw [importProjects, hchar1] at hy
        rcases List.mem_append.mp hy with hm | hm
        · -- y is a rewritten local record
          rcases List.mem_map.mp hm with ⟨t, _, ht2⟩
          cases hft : snap.find? (fun v => v.1 == t.1) with
          | none =>
            exfalso
            have hyt : y = t := by
              rw [← ht2, mergeOverride, hft]
              simp
            have hcontra : snap.find? (fun v => v.1 == y.1) = none := by
              rw [hyt]; exact hft
            rw [hfq] at hcontra
            exact Option.noConfusion hcontra
          | some q' =>
            have hyt : y = (t.1, mergeProjectExisting t.2 q'.2) := by
              rw [← ht2, mergeOverride, hft]
              simp
            have hy1 : y.1 = t.1 := by rw [hyt]
            have hqq : q = q' := by
              have hstep : snap.find? (fun v => v.1 == y.1) = some q' := by
                rw [hy1]; exact hft
              rw [hfq] at hstep
              exact Option.some.inj hstep
            have hy2 : y.2 = mergeProjectExisting t.2 q.2 := by
              rw [hyt, hqq]
            rw [hy2]
            exact mergeProjectExisting_idem t.2 q.2 (hst q hqsnap)
        · -- y is a freshly appended snapshot record
          have hysnap : y ∈ snap := List.mem_of_mem_filter hm
          have hqy : q = y := by
            have hself := find?_key_self Prod.fst snap hsk y hysnap
            rw [hfq] at hself
            exact Option.some.inj hself
          rw [hqy]
          exact mergeProjectExisting_self y.2 (hst y hysnap)
      rw [mergeOverride, hfq]
      simp only [Option.map_some', Option.getD_some]
      rw [show ((y.1, mergeProjectExisting y.2 q.2) : String × Project)
          = (y.1, y.2) from by rw [habsorb]]
  -- assemble: second fold = map of fixpoints ++ empty fresh part
  rw [show importProjects (importProjects cur snap) snap
      = dictFold Prod.fst
          (fun p q : String × Project => (p.1, mergeProjectExisting p.2 q.2))
          (importProjects cur snap) snap from rfl, hchar2]
  have hfrnil : mergeFresh Prod.fst (importProjects cur snap) snap = [] := by
    rw [mergeFresh, List.filter_eq_nil_iff]
    intro q hq
    simp [hpresent q hq]
  rw [hfrnil, List.append_nil]
  calc (importProjects cur snap).map
        (mergeOverride Prod.fst
          (fun p q : String × Project => (p.1, mergeProjectExisting p.2 q.2)) snap)
      = (importProjects cur snap).map (fun y => y) := List.map_congr_left hfix
    _ = importProjects cur snap := by simp

/-- C3: Idempotent re-import.  For every snapshot, importing it a
second time right after it has been imported once leaves the profiles,
logs, projects and session-history collections exactly as they were
after the first import: all ids already exist (so profile/log entries
are skipped and history entries are exact duplicates), and
re-reconciling the now-identical task lists changes nothing.  The id
uniqueness hypotheses are the collection invariant of §3 (and JSON
objects cannot carry duplicate keys). -/
theorem import_idempotent (S : Stores) (snap : Snapshot)
    (hck : (S.projects.map Prod.fst).Nodup)
    (hsk : (snap.projects.map Prod.fst).Nodup)
    (hst : ∀ kv ∈ snap.projects,
      (((kv : String × Project).2.tasks.map Task.taskID)).Nodup) :
    importAllStores (importAllStores S snap) snap = importAllStores S snap := by
  unfold importAllStores
  congr 1
  · exact importSkipExisting_idem _ _
  · exact importSkipExisting_idem _ _
  · exact importProjects_idem _ _ hck hsk hst
  · exact importHistory_idem _ _

/-- Concrete local store for the C3 witness. -/
def c3Store : Stores :=
  { profiles := [("Z-1",
      { name := "Zaheerul Islam", id := "Z-1",
        role := "Creator of this log system", ic := "N/A", pn := "N/A",
        cb := some 12345 })]
    logs := [(1, ["March 12, 2025 — Mia smiled at me during the group work.",
                  "She looked shy but happy."])]
    projects := [("PROJ-001", c1LocalP)]
    history := [{ userId := "demoplate", eventType := "Login Success" }] }

/-- Concrete snapshot for the C3 witness: one fresh profile, one fresh
log, the overlapping project of the C1 witness and one fresh history
entry. -/
def c3Snap : Snapshot :=
  { profiles := [("P-2",
      { name := "Second", id := "P-2", role := "Tester", ic := "N/A",
        pn := "N/A", cb := none })]
    logs := [(2, ["March 20, 2025 — Helped someone with their book."])]
    projects := [("PROJ-001", c1ImportedQ)]
    history := [{ userId := "demoplate", eventType := "Exit" }] }

/-- Witness for C3 at a concrete store and snapshot. -/
theorem import_idempotent_witness :
    importAllStores (importAllStores c3Store c3Snap) c3Snap
      = importAllStores c3Store c3Snap :=
  import_idempotent c3Store c3Snap (by decide) (by decide) (by decide)

/-! ### Log id allocation (`newlog` line 830, `deletelog` line 911) -/

/-- Line 830: `next_id = max(stories.keys()) + 1 if stories else 1`
(Python's `max` over the key view; iteration order is immaterial for
the maximum). -/
def nextLogId (stories : LogsMap) : Int :=
  match stories with
  | [] => 1
  | p :: rest => (rest.foldl (fun m q => max m q.1) p.1) + 1

/-- A store-level log operation: `newlog` stores the new entry under
the freshly allocated id (line 837, a dict assignment); `deletelog`
removes an id after the interactive confirmation matched (line 911). -/
inductive LogOp where
  | create (lines : LogEntry)
  | delete (id : Int)

def applyLogOp (stories : LogsMap) : LogOp → LogsMap
  | .create lines => dictInsert stories (nextLogId stories) lines
  | .delete id => dictErase stories id

def applyLogOps (stories : LogsMap) (ops : List LogOp) : LogsMap :=
  ops.foldl applyLogOp stories

theorem foldl_max_le_self (l : List Int) : ∀ a : Int, a ≤ l.foldl max a := by
  induction l with
  | nil => intro a; exact le_refl a
  | cons b l ih =>
    intro a
    exact le_trans (le_max_left a b) (ih (max a b))

theorem foldl_max_le (l : List Int) :
    ∀ (a x : Int), x ∈ l → x ≤ l.foldl max a := by
  induction l with
  | nil => intro a x hx; simp at hx
  | cons b l ih =>
    intro a x hx
    rcases List.mem_cons.mp hx with h | h
    · subst h
      exact le_trans (le_max_right a x) (foldl_max_le_self l (max a x))
    · exact ih (max a b) x h

theorem foldl_max_mem (l : List Int) :
    ∀ a : Int, l.foldl max a = a ∨ l.foldl max a ∈ l := by
  induction l with
  | nil => intro a; left; rfl
  | cons b l ih =>
    intro a
    rcases ih (max a b) with h | h
    · rcases max_choice a b with hm | hm
      · left; rw [List.foldl_cons, h, hm]
      · right; rw [List.foldl_cons, h, hm]; exact List.mem_cons_self b l
    · right; exact List.mem_cons_of_mem b h

/-- In a nonempty store the allocator returns the maximum id plus one. -/
theorem nextLogId_max (s : LogsMap) (hne : s ≠ []) :
    ∃ m ∈ s.map Prod.fst, (∀ k ∈ s.map Prod.fst, k ≤ m) ∧ nextLogId s = m + 1 := by
  match s with
  | [] => exact absurd rfl hne
  | p :: rest =>
    have hm : rest.foldl (fun m q => max m q.1) p.1
        = (rest.map Prod.fst).foldl max p.1 := by
      rw [List.foldl_map]
    refine ⟨rest.foldl (fun m q => max m q.1) p.1, ?_, ?_, ?_⟩
    · rw [hm, List.map_cons]
      rcases foldl_max_mem (rest.map Prod.fst) p.1 with h | h
      · rw [h]; exact List.mem_cons_self _ _
      · exact List.mem_cons_of_mem _ h
    · intro k hk
      rw [hm]
      rw [List.map_cons, List.mem_cons] at hk
      rcases hk with h | h
      · rw [h]; exact foldl_max_le_self _ _
      · exact foldl_max_le _ _ _ h
    · rfl

/-- The allocator's result is positive on an all-positive store. -/
theorem nextLogId_pos (s : LogsMap)
    (hpos : ∀ p ∈ s, 0 < (p : Int × LogEntry).1) : 0 < nextLogId s := by
  match s with
  | [] => decide
  | p :: rest =>
    rcases nextLogId_max (p :: rest) (by simp) with ⟨m, _, hbound, heq⟩
    rw [heq]
    have hp : p.1 ≤ m := hbound p.1 (by simp)
    have hp0 : 0 < p.1 := hpos p (by simp)
    omega

/-- Keys after a dict assignment: an old key or the assigned key. -/
theorem dictInsert_keys_sub {κ α : Type*} [BEq κ] [LawfulBEq κ]
    (d : List (κ × α)) (k : κ) (v : α) :
    ∀ p ∈ dictInsert d k v, p.1 ∈ d.map Prod.fst ∨ p.1 = k := by
  intro p hp
  unfold dictInsert at hp
  by_cases hc : dictContains d k = true
  · rw [if_pos hc] at hp
    rcases List.mem_map.mp hp with ⟨q, hq, hq2⟩
    by_cases hqk : (q.1 == k) = true
    · rw [if_pos hqk] at hq2
      right; rw [← hq2]
      simpa using hqk
    · rw [if_neg hqk] at hq2
      left; rw [← hq2]
      exact List.mem_map_of_mem Prod.fst hq
  · rw [if_neg hc] at hp
    rcases List.mem_append.mp hp with h | h
    · left; exact List.mem_map_of_mem Prod.fst h
    · right
      have hpk : p = (k, v) := by simpa using h
      rw [hpk]

/-- Every operation sequence preserves positivity of the log ids. -/
theorem applyLogOps_pos (ops : List LogOp) :
    ∀ (init : LogsMap), (∀ p ∈ init, 0 < (p : Int × LogEntry).1) →
      ∀ p ∈ applyLogOps init ops, 0 < (p : Int × LogEntry).1 := by
  induction ops with
  | nil => intro init hpos p hp; exact hpos p hp
  | cons op ops ih =>
    intro init hpos
    have hstep : ∀ p ∈ applyLogOp init op, 0 < (p : Int × LogEntry).1 := by
      intro p hp
      cases op with
      | create lines =>
        rcases dictInsert_keys_sub init (nextLogId init) lines p hp with h | h
        · rcases List.mem_map.mp h with ⟨q, hq, hq2⟩
          rw [← hq2]; exact hpos q hq
        · rw [h]; exact nextLogId_pos init hpos
      | delete id =>
        exact hpos p (List.mem_of_mem_filter hp)
    exact ih (applyLogOp init op) hstep

/-- C5: Log id allocation.  After any sequence of log creations and
deletions from an all-positive store, the id the next creation will
use equals `max(existing ids) + 1`, or `1` when no logs remain; it is
a positive integer; and it is strictly greater than every currently
existing id, so an id is never recycled from a state whose maximum is
at least that id. -/
theorem log_id_allocation (init : LogsMap) (ops : List LogOp)
    (hpos : ∀ p ∈ init, 0 < (p : Int × LogEntry).1) :
    (∀ p ∈ applyLogOps init ops, 0 < (p : Int × LogEntry).1) ∧
    0 < nextLogId (applyLogOps init ops) ∧
    (applyLogOps init ops = [] → nextLogId (applyLogOps init ops) = 1) ∧
    (applyLogOps init ops ≠ [] →
      ∃ m ∈ (applyLogOps init ops).map Prod.fst,
        (∀ k ∈ (applyLogOps init ops).map Prod.fst, k ≤ m) ∧
        nextLogId (applyLogOps init ops) = m + 1) ∧
    (∀ k ∈ (applyLogOps init ops).map Prod.fst,
      k < nextLogId (applyLogOps init ops)) := by
  have hspos := applyLogOps_pos ops init hpos
  refine ⟨hspos, nextLogId_pos _ hspos, ?_, ?_, ?_⟩
  · intro h; rw [h]; rfl
  · intro h; exact nextLogId_max _ h
  · intro k hk
    have hne : applyLogOps init ops ≠ [] := by
      intro h; rw [h] at hk; simp at hk
    rcases nextLogId_max _ hne with ⟨m, _, hbound, heq⟩
    rw [heq]
    have := hbound k hk
    omega

/-- Operation sequence for the C5 witness: create two entries, delete
the first, create again — the new id is 4 = max {2, 3} + 1. -/
def c5Ops : List LogOp :=
  [.create ["first entry"], .create ["second entry"],
   .delete 1, .create ["third entry"]]

/-- Witness for C5: the concrete run allocates 1, 2, then (after the
delete of 1) 3; afterwards the next id would be 4. -/
theorem log_id_allocation_witness :
    applyLogOps [] c5Ops
        = [(2, ["second entry"]), (3, ["third entry"])] ∧
      nextLogId (applyLogOps [] c5Ops) = 4 ∧
      0 < nextLogId (applyLogOps [] c5Ops) :=
  ⟨by decide, by decide, (log_id_allocation [] c5Ops (by decide)).2.1⟩

/-! ### Edit commands: leave-blank-to-keep

`project_edit_command` (core.py lines 282-309) and the inline
`profilesedit` handler (lines 1005-1036): each prompted reply is
stripped, and the field is overwritten only when the stripped reply is
non-empty (string truthiness). -/

/-- Lines 292-302: the field updates of `projectedit` applied to the
four prompted replies. -/
def projectEditFields (proj : Project) (iName iDesc iStatus iDue : String) : Project :=
  let p1 := if pyStrip iName ≠ "" then { proj with name := pyStrip iName } else proj
  let p2 := if pyStrip iDesc ≠ "" then { p1 with description := pyStrip iDesc } else p1
  let p3 := if pyStrip iStatus ≠ "" then { p2 with status := pyStrip iStatus } else p2
  if pyStrip iDue ≠ "" then { p3 with dueDate := pyStrip iDue } else p3

/-- Lines 1012-1032: the field updates of `profilesedit` applied to
the five prompted replies (Name, Role, IC, PN, then CB; a non-blank CB
reply that fails integer parsing leaves CB unchanged). -/
def profileEditFields (prof : Profile) (iName iRole iIC iPN iCB : String) : Profile :=
  let p1 := if pyStrip iName ≠ "" then { prof with name := pyStrip iName } else prof
  let p2 := if pyStrip iRole ≠ "" then { p1 with role := pyStrip iRole } else p1
  let p3 := if pyStrip iIC ≠ "" then { p2 with ic := pyStrip iIC } else p2
  let p4 := if pyStrip iPN ≠ "" then { p3 with pn := pyStrip iPN } else p3
  if pyStrip iCB ≠ "" then
    match pyParseInt (pyStrip iCB) with
    | some n => { p4 with cb := some n }
    | none => p4
  else p4

/-- C6: Edit no-op law.  A field answered with a blank (or
whitespace-only) reply keeps its prior value in `projectedit` and
`profilesedit`, and answering every prompt blank leaves the record
byte-for-byte unchanged. -/
theorem edit_blank_keeps_fields
    (proj : Project) (prof : Profile)
    (iName iDesc iStatus iDue : String)
    (pName pRole pIC pPN pCB : String) :
    ((pyStrip iName = "" →
        (projectEditFields proj iName iDesc iStatus iDue).name = proj.name) ∧
     (pyStrip iDesc = "" →
        (projectEditFields proj iName iDesc iStatus iDue).description
          = proj.description) ∧
     (pyStrip iStatus = "" →
        (projectEditFields proj iName iDesc iStatus iDue).status = proj.status) ∧
     (pyStrip iDue = "" →
        (projectEditFields proj iName iDesc iStatus iDue).dueDate = proj.dueDate) ∧
     (pyStrip iName = "" ∧ pyStrip iDesc = "" ∧ pyStrip iStatus = ""
        ∧ pyStrip iDue = "" →
        projectEditFields proj iName iDesc iStatus iDue = proj)) ∧
    ((pyStrip pName = "" →
        (profileEditFields prof pName pRole pIC pPN pCB).name = prof.name) ∧
     (pyStrip pRole = "" →
        (profileEditFields prof pName pRole pIC pPN pCB).role = prof.role) ∧
     (pyStrip pIC = "" →
        (profileEditFields prof pName pRole pIC pPN pCB).ic = prof.ic) ∧
     (pyStrip pPN = "" →
        (profileEditFields prof pName pRole pIC pPN pCB).pn = prof.pn) ∧
     (pyStrip pCB = "" →
        (profileEditFields prof pName pRole pIC pPN pCB).cb = prof.cb) ∧
     (pyStrip pName = "" ∧ pyStrip pRole = "" ∧ pyStrip pIC = ""
        ∧ pyStrip pPN = "" ∧ pyStrip pCB = "" →
        profileEditFields prof pName pRole pIC pPN pCB = prof)) := by
  unfold projectEditFields profileEditFields
  constructor
  · refine ⟨?_, ?_, ?_, ?_, ?_⟩
    · intro h; split_ifs <;> simp_all
    · intro h; split_ifs <;> simp_all
    · intro h; split_ifs <;> simp_all
    · intro h; split_ifs <;> simp_all
    · rintro ⟨h1, h2, h3, h4⟩; simp [h1, h2, h3, h4]
  · refine ⟨?_, ?_, ?_, ?_, ?_, ?_⟩
    · intro h; split_ifs <;> (try split) <;> simp_all
    · intro h; split_ifs <;> (try split) <;> simp_all
    · intro h; split_ifs <;> (try split) <;> simp_all
    · intro h; split_ifs <;> (try split) <;> simp_all
    · intro h; split_ifs <;> (try split) <;> simp_all
    · rintro ⟨h1, h2, h3, h4, h5⟩; simp [h1, h2, h3, h4, h5]

/-- Concrete profile for the C6 witness. -/
def c6Prof : Profile :=
  { name := "Zaheerul Islam", id := "Z-1",
    role := "Creator of this log system", ic := "N/A", pn := "N/A",
    cb := some 12345 }

/-- Witness for C6: all-blank replies (including whitespace-only ones)
leave the concrete project and profile unchanged. -/
theorem edit_blank_keeps_fields_witness :
    projectEditFields c1LocalP "" " " "" "" = c1LocalP ∧
    profileEditFields c6Prof "" "" " " "" "" = c6Prof :=
  ⟨(edit_blank_keeps_fields c1LocalP c6Prof "" " " "" "" "" "" " " "" "").1.2.2.2.2
      ⟨by decide, by decide, by decide, by decide⟩,
   (edit_blank_keeps_fields c1LocalP c6Prof "" " " "" "" "" "" " " "" "").2.2.2.2.2.2
      ⟨by decide, by decide, by decide, by decide, by decide⟩⟩

/-! ### `task_update_command` (core.py lines 378-427) -/

/-- Result of the source's `for task in project_tasks` scan: the first
record with the requested TaskID decides the outcome. -/
inductive TaskScan where
  | notFound
  | invalid
  | updated (ts : List Task)
  deriving Repr, DecidableEq

/-- Lines 398-423: walk the task list; at the first matching TaskID
apply the requested update (`status` with the three-value enumeration,
`assigned` validated against the profiles) or report the invalid
input, leaving the remaining records untouched. -/
def taskUpdateScan (tasks : List Task) (taskId updType value : String)
    (profiles : ProfilesMap) : TaskScan :=
  match tasks with
  | [] => .notFound
  | t :: rest =>
    if t.taskID == taskId then
      if updType == "status" then
        if pyLower value ∈ ["pending", "in progress", "complete"] then
          .updated ({ t with status := pyTitle value } :: rest)
        else .invalid
      else if updType == "assigned" then
        if value != "" && !(dictContains profiles (pyUpper value)) then
          .updated ({ t with assignedTo := "Unassigned" } :: rest)
        else if value == "" then
          .updated ({ t with assignedTo := "Unassigned" } :: rest)
        else
          .updated ({ t with assignedTo := pyUpper value } :: rest)
      else .invalid
    else
      match taskUpdateScan rest taskId updType value profiles with
      | .updated rest2 => .updated (t :: rest2)
      | r => r

/-- Lines 378-427: parse the argument tail with `split(" ", 3)`,
upper-case the project and task ids, locate the project, scan its task
list, and call `save_projects` exactly on the successful path.
Returns (projects map, handler result, whether a save was issued). -/
def task_update_command (projects : ProjectsMap) (argsStr : String)
    (profiles : ProfilesMap) : ProjectsMap × Bool × Bool :=
  let args := pySplitSpace 3 argsStr
  if args.length < 3 then (projects, false, false)
  else
    let projId := pyUpper (args.headD "")
    let taskId := pyUpper ((args.drop 1).headD "")
    let updType := pyLower ((args.drop 2).headD "")
    let value := (args.drop 3).headD ""
    match dictGet? projects projId with
    | none => (projects, false, false)
    | some proj =>
      match taskUpdateScan proj.tasks taskId updType value profiles with
      | .notFound => (projects, false, false)
      | .invalid => (projects, false, false)
      | .updated ts =>
        (dictInsert projects projId { proj with tasks := ts }, true, true)

/-- The scan on a list whose first matching record is `t`. -/
theorem taskUpdateScan_status (pre : List Task) :
    ∀ (t : Task) (post : List Task) (tid v : String) (profiles : ProfilesMap),
      (∀ u ∈ pre, ¬ u.taskID = tid) → t.taskID = tid →
      taskUpdateScan (pre ++ t :: post) tid "status" v profiles
        = if pyLower v ∈ ["pending", "in progress", "complete"]
          then .updated (pre ++ { t with status := pyTitle v } :: post)
          else .invalid := by
  induction pre with
  | nil =>
    intro t post tid v profiles _ ht
    rw [List.nil_append, taskUpdateScan, if_pos (by simpa using ht)]
    rw [if_pos (by simp)]
    by_cases hv : pyLower v ∈ ["pending", "in progress", "complete"]
    · rw [if_pos hv, if_pos hv, List.nil_append]
    · rw [if_neg hv, if_neg hv]
  | cons u pre ih =>
    intro t post tid v profiles hpre ht
    have hu : ¬ u.taskID = tid := hpre u (by simp)
    rw [List.cons_append, taskUpdateScan, if_neg (by simpa using hu),
      ih t post tid v profiles (fun w hw => hpre w (by simp [hw])) ht]
    by_cases hv : pyLower v ∈ ["pending", "in progress", "complete"]
    · rw [if_pos hv, if_pos hv, List.cons_append]
    · rw [if_neg hv, if_neg hv]

/-- C9: Task status update validation.  For a `taskupdate` of an
existing task (first matching record) with update type `status`: when
the value case-insensitively equals one of the three allowed statuses
the task's Status is set to the title-cased form of the value and the
projects store is saved; otherwise the handler reports failure, no
task field changes, and no save is issued. -/
theorem task_update_status_validation
    (projects : ProjectsMap) (profiles : ProfilesMap)
    (argsStr a0 a1 a2 v : String) (proj : Project) (t : Task)
    (pre post : List Task)
    (hargs : pySplitSpace 3 argsStr = [a0, a1, a2, v])
    (hstat : pyLower a2 = "status")
    (hproj : dictGet? projects (pyUpper a0) = some proj)
    (htasks : proj.tasks = pre ++ t :: post)
    (hfirst : ∀ u ∈ pre, ¬ u.taskID = pyUpper a1)
    (ht : t.taskID = pyUpper a1) :
    (pyLower v ∈ ["pending", "in progress", "complete"] →
      task_update_command projects argsStr profiles
        = (dictInsert projects (pyUpper a0)
            { proj with tasks := pre ++ { t with status := pyTitle v } :: post },
           true, true)) ∧
    (pyLower v ∉ ["pending", "in progress", "complete"] →
      task_update_command projects argsStr profiles = (projects, false, false)) := by
  have hlen : ¬ (pySplitSpace 3 argsStr).length < 3 := by rw [hargs]; simp
  have hbody : task_update_command projects argsStr profiles
      = (match taskUpdateScan proj.tasks (pyUpper a1) (pyLower a2) v profiles with
         | .notFound => (projects, false, false)
         | .invalid => (projects, false, false)
         | .updated ts =>
           (dictInsert projects (pyUpper a0) { proj with tasks := ts },
            true, true)) := by
    rw [task_update_command]
    rw [hargs]
    rw [if_neg (by simp)]
    simp only [List.headD, List.drop, hproj]
  rw [hbody, htasks, hstat,
    taskUpdateScan_status pre t post (pyUpper a1) v profiles hfirst ht]
  constructor
  · intro hv; rw [if_pos hv]
  · intro hv; rw [if_neg hv]

/-- Concrete projects map for the C9 witness. -/
def c9Projects : ProjectsMap := [("PROJ-001", c1LocalP)]

/-- Witness for C9, exercising both branches at concrete inputs: a
valid mixed-case status value is stored title-cased with a save, and
an invalid value changes and persists nothing. -/
theorem task_update_status_validation_witness :
    task_update_command c9Projects "proj-001 t-2 status in progress" []
      = ([("PROJ-001",
          { name := "Phase 1", description := "local", status := "Active",
            dueDate := "2025-08-15",
            tasks := [{ taskID := "T-1", description := "a",
                        assignedTo := "Z-1", status := "Pending" },
                      { taskID := "T-2", description := "b",
                        assignedTo := "Unassigned",
                        status := "In Progress" }] })], true, true) ∧
    task_update_command c9Projects "proj-001 t-2 status done" []
      = (c9Projects, false, false) :=
  ⟨((task_update_status_validation c9Projects [] "proj-001 t-2 status in progress"
      "proj-001" "t-2" "status" "in progress"
      c1LocalP { taskID := "T-2", description := "b",
                 assignedTo := "Unassigned", status := "Pending" }
      [{ taskID := "T-1", description := "a", assignedTo := "Z-1",
         status := "Pending" }] []
      (by decide) (by decide) (by decide) (by decide) (by decide)
      (by decide)).1 (by decide)).trans (by decide),
   ((task_update_status_validation c9Projects [] "proj-001 t-2 status done"
      "proj-001" "t-2" "status" "done"
      c1LocalP { taskID := "T-2", description := "b",
                 assignedTo := "Unassigned", status := "Pending" }
      [{ taskID := "T-1", description := "a", assignedTo := "Z-1",
         status := "Pending" }] []
      (by decide) (by decide) (by decide) (by decide) (by decide)
      (by decide)).2 (by decide)).trans (by decide)⟩

/-! ### Dispatcher tokenisation (core.py lines 752-755) -/

/-- Lines 752-755: `command_raw = prompt_input().strip()` and
`command_parts = command_raw.lower().split(" ", 1)` — the whole
stripped line is lower-cased and then split at its first space
character; `base_command` is part 0 and `arg` is part 1 (or `""`). -/
def dispatchTokenize (line : String) : String × String :=
  let parts := pySplitSpace 1 (pyLower (pyStrip line))
  (parts.headD "", (parts.drop 1).headD "")

/-- The split described by the spec sentence, for comparison: break
the stripped line at its first space, preserving character case. -/
def splitCommandRaw (line : String) : String × String :=
  let parts := pySplitSpace 1 (pyStrip line)
  (parts.headD "", (parts.drop 1).headD "")

/-- ASCII lower-casing sends no character to the space character
except the space itself. -/
theorem toLower_eq_space_iff (c : Char) : Char.toLower c = ' ' ↔ c = ' ' := by
  constructor
  · intro h
    rw [Char.toLower] at h
    by_cases hc : c.toNat ≥ 65 ∧ c.toNat ≤ 90
    · exfalso
      rw [if_pos hc] at h
      have hvalid : (c.toNat + 32).isValidChar := Or.inl (by omega)
      have hval : (Char.ofNat (c.toNat + 32)).toNat = c.toNat + 32 := by
        rw [Char.ofNat, dif_pos hvalid]
        rfl
      rw [h] at hval
      have h32 : (' ' : Char).toNat = 32 := rfl
      rw [h32] at hval
      omega
    · rw [if_neg hc] at h
      exact h
  · intro h
    rw [h]
    decide

/-- The function `breakAtSpace` commutes with character-wise lower-casing. -/
theorem breakAtSpace_map_toLower (cs : List Char) :
    breakAtSpace (cs.map Char.toLower)
      = (breakAtSpace cs).map
          (fun ab => (ab.1.map Char.toLower, ab.2.map Char.toLower)) := by
  induction cs with
  | nil => rfl
  | cons c cs ih =>
    by_cases hc : c = ' '
    · subst hc
      rw [List.map_cons, breakAtSpace, breakAtSpace]
      rw [if_pos (by decide), if_pos rfl]
      rfl
    · have hcl : ¬ Char.toLower c = ' ' := fun h => hc ((toLower_eq_space_iff c).mp h)
      rw [List.map_cons, breakAtSpace, breakAtSpace, if_neg hcl, if_neg hc, ih]
      cases h : breakAtSpace cs with
      | none => rfl
      | some ab => rfl

/-- Splitting once at a space commutes with lower-casing the line. -/
theorem pySplitSpace_one_lower (s : String) :
    pySplitSpace 1 (pyLower s) = (pySplitSpace 1 s).map pyLower := by
  unfold pySplitSpace
  rw [show (pyLower s).data = s.data.map Char.toLower from rfl]
  cases h : breakAtSpace s.data with
  | none =>
    have h2 : breakAtSpace (s.data.map Char.toLower) = none := by
      rw [breakAtSpace_map_toLower, h]
      rfl
    simp only [pySplitSpace.go, h, h2, List.map_cons, List.map_nil]
    rfl
  | some ab =>
    have h2 : breakAtSpace (s.data.map Char.toLower)
        = some (ab.1.map Char.toLower, ab.2.map Char.toLower) := by
      rw [breakAtSpace_map_toLower, h]
      rfl
    simp only [pySplitSpace.go, h, h2, List.map_cons, List.map_nil]
    constructor

/-- C7 fails as stated: the dispatcher delivers a lower-cased argument
tail (and does not collapse space runs), so the tail is not the raw
remainder with its case preserved. -/
theorem dispatch_tokenize_counterexample :
    dispatchTokenize "logbook ABC" = ("logbook", "abc")
    ∧ ¬ (dispatchTokenize "logbook ABC").2 = "ABC"
    ∧ dispatchTokenize "logbook  ABC" = ("logbook", " abc")
    ∧ ¬ (dispatchTokenize "logbook  ABC").2 = "ABC" := by decide

/-- C7 amended: the dispatcher splits the stripped line at its first
single space character, but lower-cases the whole line first, so the
command token AND the delivered argument tail are the lower-cased
halves of the raw split (original case is not preserved in the tail,
and consecutive spaces stay in the tail). -/
theorem dispatch_tokenize_amended (line : String) :
    dispatchTokenize line
      = (pyLower (splitCommandRaw line).1, pyLower (splitCommandRaw line).2) := by
  unfold dispatchTokenize splitCommandRaw
  rw [pySplitSpace_one_lower (pyStrip line)]
  cases hp : pySplitSpace 1 (pyStrip line) with
  | nil => simp; constructor <;> rfl
  | cons a rest =>
    cases rest with
    | nil => simp; rfl
    | cons b rest2 => simp

/-! ### The command loop of `main` (core.py lines 750-1191)

The loop is a state machine over one input stream: every
`prompt_input()` call (the main prompt and every sub-prompt) consumes
the next line; `input()` at end of stream raises `EOFError`, which
nothing below the top-level handler catches. -/

def SESSION_FILE : String := "session.txt"
def PROFILES_FILE : String := "profiles.json"
def LOGS_FILE : String := "logs.json"
def SESSION_HISTORY_FILE : String := "session_history.json"
def PROJECTS_FILE : String := "projects.json"

/-- Which of the four JSON store files reject writes; `save_json_file`
(lines 127-140) re-raises any write failure to the caller. -/
structure SaveOracle where
  failProfiles : Bool
  failLogs : Bool
  failProjects : Bool
  failHistory : Bool
  deriving Repr, DecidableEq

/-- External snapshot files visible to `importdata`: a name maps to a
parsed snapshot, or to `none` when the file exists but is not valid
JSON; a name absent from the list is a missing file. -/
abbrev FileSystem := List (String × Option Snapshot)

/-- The machine state of `main`'s loop: pending input lines, the
session token file content, the global `current_platecore_id`, the
three in-memory collections (`stories`, `profiles`, `projects`), the
on-disk image of the four stores (history has no in-memory copy: it is
re-loaded at each use), the external snapshot files, the save oracle,
the abstract current-date string, the JSON/external files successfully
written so far, and the `print_error` tags emitted so far.  The
cosmetic `log_dates` display cache is elided. -/
structure MachineState where
  inputs : List String
  token : Option String
  currentUser : Option String
  storiesMem : LogsMap
  profilesMem : ProfilesMap
  projectsMem : ProjectsMap
  storiesDisk : LogsMap
  profilesDisk : ProfilesMap
  projectsDisk : ProjectsMap
  historyDisk : List HistoryEntry
  fs : FileSystem
  oracle : SaveOracle
  today : String
  writeLog : List String
  errLog : List String
  deriving Repr, DecidableEq

/-- Python truthiness of the optional user id (`None` and `""` are
falsy). -/
def isTruthy : Option String → Bool
  | none => false
  | some s => s != ""

/-- Source `current_platecore_id if current_platecore_id else "UNKNOWN"`. -/
def userOrUnknown (s : MachineState) : String :=
  match s.currentUser with
  | some u => if u = "" then "UNKNOWN" else u
  | none => "UNKNOWN"

/-- Append a `print_error` tag. -/
def perr (msg : String) (s : MachineState) : MachineState :=
  { s with errLog := s.errLog ++ [msg] }

/-- A handler either runs to completion or raises with the state at
the raise point (in-memory mutations made before the raise persist). -/
abbrev HRes := Except MachineState MachineState

/-- Source `prompt_input()`: consume the next input line; `EOFError` at end
of stream. -/
def popInput (s : MachineState) : Except MachineState (String × MachineState) :=
  match s.inputs with
  | [] => .error s
  | line :: rest => .ok (line, { s with inputs := rest })

/-- Source `save_profiles` (line 147): write the in-memory profiles to disk,
raising when the oracle marks the file unwritable (failed writes leave
the disk image unchanged). -/
def save_profiles_m (s : MachineState) : HRes :=
  if s.oracle.failProfiles then .error s
  else .ok { s with profilesDisk := s.profilesMem,
                    writeLog := s.writeLog ++ [PROFILES_FILE] }

/-- Source `save_logs` (line 157). -/
def save_logs_m (s : MachineState) : HRes :=
  if s.oracle.failLogs then .error s
  else .ok { s with storiesDisk := s.storiesMem,
                    writeLog := s.writeLog ++ [LOGS_FILE] }

/-- Source `save_projects` (line 165). -/
def save_projects_m (s : MachineState) : HRes :=
  if s.oracle.failProjects then .error s
  else .ok { s with projectsDisk := s.projectsMem,
                    writeLog := s.writeLog ++ [PROJECTS_FILE] }

/-- Source `save_session_history` (line 174) applied to a given value. -/
def save_history_m (h : List HistoryEntry) (s : MachineState) : HRes :=
  if s.oracle.failHistory then .error s
  else .ok { s with historyDisk := h,
                    writeLog := s.writeLog ++ [SESSION_HISTORY_FILE] }

/-- Source `record_session_event` (lines 178-194): load the history from
disk, append the new entry, save it back (timestamps elided). -/
def record_event (s : MachineState) (uid etype : String) : HRes :=
  save_history_m
    (s.historyDisk ++ [{ userId := uid, eventType := etype }]) s

/-- Source `mark_logged_in` (lines 88-93): set the global id and write the
token file. -/
def mark_logged_in (uid : String) (s : MachineState) : MachineState :=
  { s with currentUser := some uid, token := some uid,
           writeLog := s.writeLog ++ [SESSION_FILE] }

/-- Source `clear_session` (lines 102-107): remove the token file and clear
the global id. -/
def clear_session (s : MachineState) : MachineState :=
  { s with token := none, currentUser := none }

/-- Single-character containment (`"—" in line`; the delimiter is one
character). -/
def containsChar (line : String) (c : Char) : Bool :=
  line.data.any (fun d => d = c)

/-- Is `pat` an initial segment of `cs`? -/
def subListAt (cs pat : List Char) : Bool :=
  match pat with
  | [] => true
  | d :: ds =>
    match cs with
    | [] => false
    | c :: cs => c = d && subListAt cs ds

/-- Python substring containment (`kw in line`). -/
def containsSub (line kw : String) : Bool :=
  go line.data
where
  go : List Char → Bool
    | [] => kw.data.isEmpty
    | c :: cs => subListAt (c :: cs) kw.data || go cs

/-- Line 876: does the new first line already carry a month keyword or
the date delimiter? -/
def monthKeyword (line : String) : Bool :=
  ["Jan", "Feb", "Mar", "Apr", "May", "Jun", "Jul", "Aug", "Sep",
   "Oct", "Nov", "Dec", "—"].any (fun kw => containsSub line kw)

/-- Source `line.split('—', 1)[0]`: the text before the first date
delimiter. -/
def beforeEmDash (line : String) : String :=
  String.mk (line.data.takeWhile (fun c => c ≠ '—'))

/-- The multi-line entry reader of `newlog`/`editlog` (lines 820-824):
strip each line, stop at `END` (case-insensitive); `none` when the
stream ends first (the `input()` call raises). -/
def readLinesUntilEnd : List String → List String → Option (List String × List String)
  | [], _ => none
  | line :: rest, acc =>
    let l := pyStrip line
    if pyUpper l == "END" then some (acc, rest)
    else readLinesUntilEnd rest (acc ++ [l])

/-- Source `login` (lines 765-781). -/
def loginHandler (s : MachineState) : HRes :=
  if isTruthy s.currentUser then .ok s
  else do
    let (uid, s) ← popInput s
    let (pw, s) ← popInput s
    if uid == "demoplate" && pw == "245225" then
      record_event (mark_logged_in uid s) uid "Login Success"
    else
      record_event (perr "Access Denied." s)
        (if uid = "" then "UNKNOWN" else uid) "Login Denied"

/-- Source `logout` (lines 783-790): the history record is written before the
session is cleared. -/
def logoutHandler (s : MachineState) : HRes :=
  if isTruthy s.currentUser then do
    let s ← record_event s (s.currentUser.getD "") "Logout"
    .ok (clear_session s)
  else .ok s

/-- Source `logbook` (lines 793-806): display only; errors reported locally. -/
def logbookHandler (s : MachineState) (arg : String) : HRes :=
  if arg = "" then .ok (perr "Usage: logbook <ID>" s)
  else match pyParseInt arg with
    | none => .ok (perr "Invalid logbook ID." s)
    | some id =>
      if dictContains s.storiesMem id then .ok s
      else .ok (perr "No logbook found with that ID." s)

/-- Source `newlog` (lines 816-840): read lines to `END`, allocate
`max(keys)+1`, date-prefix the first line when it lacks the delimiter,
store, save. -/
def newlogHandler (s : MachineState) : HRes :=
  match readLinesUntilEnd s.inputs [] with
  | none => .error { s with inputs := [] }
  | some (entryLines, rest) =>
    let s := { s with inputs := rest }
    if entryLines = [] then .ok (perr "Log entry cancelled (no content)." s)
    else
      let first := entryLines.headD ""
      let entryLines :=
        if !(containsChar first '—') then
          (s.today ++ " — " ++ first) :: entryLines.tail
        else entryLines
      let s := { s with storiesMem :=
        (dictInsert s.storiesMem (nextLogId s.storiesMem) entryLines) }
      save_logs_m s

/-- Source `editlog` (lines 842-896). -/
def editlogHandler (s : MachineState) (arg : String) : HRes :=
  if arg = "" then .ok (perr "Usage: editlog <ID>" s)
  else match pyParseInt arg with
  | none => .ok (perr "Invalid log ID." s)
  | some id =>
    if dictContains s.storiesMem id then
      match readLinesUntilEnd s.inputs [] with
      | none => .error { s with inputs := [] }
      | some (newLines, rest) =>
        let s := { s with inputs := rest }
        if newLines = [] then
          .ok (perr "No new content entered. Log entry not updated." s)
        else
          let origLines := (dictGet? s.storiesMem id).getD []
          let first := newLines.headD ""
          let newLines :=
            if origLines ≠ [] then
              let orig0 := origLines.headD ""
              if containsChar orig0 '—' then
                if !(monthKeyword first) then
                  (pyStrip (beforeEmDash orig0) ++ " — " ++ first) :: newLines.tail
                else newLines
              else (s.today ++ " — " ++ first) :: newLines.tail
            else (s.today ++ " — " ++ first) :: newLines.tail
          let s := { s with storiesMem := dictInsert s.storiesMem id newLines }
          save_logs_m s
    else .ok (perr "No logbook found with that ID to edit." s)

/-- Source `deletelog` (lines 898-919): two-phase delete, committed only on a
matching confirmation token. -/
def deletelogHandler (s : MachineState) (arg : String) : HRes :=
  if arg = "" then .ok (perr "Usage: deletelog <ID>" s)
  else match pyParseInt arg with
  | none => .ok (perr "Invalid log ID." s)
  | some id =>
    if dictContains s.storiesMem id then do
      let (confirm, s) ← popInput s
      if pyStrip confirm == toString id then
        save_logs_m { s with storiesMem := dictErase s.storiesMem id }
      else .ok s
    else .ok (perr "No logbook found with that ID to delete." s)

/-- Source `exportlogs` (lines 921-940): external write; its `IOError` is
caught locally. -/
def exportlogsHandler (s : MachineState) : HRes :=
  if s.storiesMem = [] then .ok s
  else do
    let (fnRaw, s) ← popInput s
    let fn := pyStrip fnRaw
    if fn = "" then .ok (perr "Export cancelled: No filename provided." s)
    else .ok { s with writeLog := s.writeLog ++ [fn] }

/-- Source `profilesview` (lines 952-967): display only. -/
def profilesviewHandler (s : MachineState) (arg : String) : HRes :=
  let pid := pyUpper (pyStrip arg)
  if pid ≠ "" then
    if dictContains s.profilesMem pid then .ok s
    else .ok (perr "Profile not found." s)
  else .ok (perr "Usage: profilesview <ID>" s)

/-- Source `profilesadd` (lines 969-1003). -/
def profilesaddHandler (s : MachineState) : HRes := do
  let (idRaw, s) ← popInput s
  let newId := pyUpper (pyStrip idRaw)
  if newId = "" then .ok (perr "Profile ID cannot be empty." s)
  else if dictContains s.profilesMem newId then
    .ok (perr "Profile ID already exists." s)
  else do
    let (nameRaw, s) ← popInput s
    let (roleRaw, s) ← popInput s
    let (icRaw, s) ← popInput s
    let (pnRaw, s) ← popInput s
    let (cbRaw, s) ← popInput s
    let cbIn := pyStrip cbRaw
    let s := if cbIn ≠ "" ∧ pyParseInt cbIn = none
             then perr "Invalid input for CB." s else s
    let blankNA := fun (v : String) => if pyStrip v ≠ "" then pyStrip v else "N/A"
    let prof : Profile :=
      { name := blankNA nameRaw, id := newId, role := blankNA roleRaw,
        ic := blankNA icRaw, pn := blankNA pnRaw,
        cb := if cbIn ≠ "" then pyParseInt cbIn else none }
    save_profiles_m { s with profilesMem := dictInsert s.profilesMem newId prof }

/-- Source `profilesedit` (lines 1005-1040): five leave-blank-to-keep
prompts, then save. -/
def profileseditHandler (s : MachineState) (arg : String) : HRes :=
  let pid := pyUpper (pyStrip arg)
  if pid ≠ "" then
    if dictContains s.profilesMem pid then do
      let (i1, s) ← popInput s
      let (i2, s) ← popInput s
      let (i3, s) ← popInput s
      let (i4, s) ← popInput s
      let (i5, s) ← popInput s
      match dictGet? s.profilesMem pid with
      | none => .ok s
      | some prof =>
        let s := if pyStrip i5 ≠ "" ∧ pyParseInt (pyStrip i5) = none
                 then perr "Invalid input for CB." s else s
        save_profiles_m { s with profilesMem :=
          (dictInsert s.profilesMem pid (profileEditFields prof i1 i2 i3 i4 i5)) }
    else .ok (perr "Profile not found." s)
  else .ok (perr "Usage: profilesedit <ID>" s)

/-- Source `profilesdelete` (lines 1042-1056). -/
def profilesdeleteHandler (s : MachineState) (arg : String) : HRes :=
  let pid := pyUpper (pyStrip arg)
  if pid ≠ "" then
    if dictContains s.profilesMem pid then do
      let (confirm, s) ← popInput s
      if pyLower confirm == "y" then
        save_profiles_m { s with profilesMem := dictErase s.profilesMem pid }
      else .ok s
    else .ok (perr "Profile not found." s)
  else .ok (perr "Usage: profilesdelete <ID>" s)

/-- Source `searchprofile` (lines 1058-1082): display only. -/
def searchprofileHandler (s : MachineState) (arg : String) : HRes :=
  if pyLower (pyStrip arg) = "" then .ok (perr "Usage: searchprofile <KEYWORD>" s)
  else .ok s

/-- Source `projectview` (lines 228-253): display only. -/
def projectviewHandler (s : MachineState) (arg : String) : HRes :=
  if arg = "" then .ok (perr "Usage: projectview <PROJECT_ID>" s)
  else if dictContains s.projectsMem (pyUpper arg) then .ok s
  else .ok (perr "Project not found." s)

/-- Source `projectadd` (`project_add_command`, lines 255-280). -/
def projectaddHandler (s : MachineState) : HRes := do
  let (idRaw, s) ← popInput s
  let newId := pyUpper (pyStrip idRaw)
  if newId = "" then .ok (perr "Project ID cannot be empty." s)
  else if dictContains s.projectsMem newId then
    .ok (perr "Project ID already exists." s)
  else do
    let (nameRaw, s) ← popInput s
    let (descRaw, s) ← popInput s
    let (statusRaw, s) ← popInput s
    let (dueRaw, s) ← popInput s
    let proj : Project :=
      { name := pyStrip nameRaw, description := pyStrip descRaw,
        status := if pyStrip statusRaw ≠ "" then pyStrip statusRaw else "Active",
        dueDate := if pyStrip dueRaw ≠ "" then pyStrip dueRaw else "N/A",
        tasks := [] }
    save_projects_m { s with projectsMem := dictInsert s.projectsMem newId proj }

/-- Source `projectedit` (`project_edit_command`, lines 282-309): applies the
leave-blank-to-keep field updates, then saves. -/
def projecteditHandler (s : MachineState) (arg : String) : HRes :=
  if arg = "" then .ok (perr "Usage: projectedit <PROJECT_ID>" s)
  else
    let pid := pyUpper arg
    if dictContains s.projectsMem pid then do
      let (i1, s) ← popInput s
      let (i2, s) ← popInput s
      let (i3, s) ← popInput s
      let (i4, s) ← popInput s
      match dictGet? s.projectsMem pid with
      | none => .ok s
      | some proj =>
        save_projects_m { s with projectsMem :=
          (dictInsert s.projectsMem pid (projectEditFields proj i1 i2 i3 i4)) }
    else .ok (perr "Project not found." s)

/-- Source `projectdelete` (`project_delete_command`, lines 311-329). -/
def projectdeleteHandler (s : MachineState) (arg : String) : HRes :=
  if arg = "" then .ok (perr "Usage: projectdelete <PROJECT_ID>" s)
  else
    let pid := pyUpper arg
    if dictContains s.projectsMem pid then do
      let (confirm, s) ← popInput s
      if pyLower confirm == "y" then
        save_projects_m { s with projectsMem := dictErase s.projectsMem pid }
      else .ok s
    else .ok (perr "Project not found." s)

/-- Task id allocation of `taskadd` (lines 347-358): strip every
`"T-"` from each TaskID left to right, keep the all-digit remainders,
allocate max+1 (1 when the task list is empty). -/
def removeTDash : List Char → List Char
  | [] => []
  | 'T' :: '-' :: rest => removeTDash rest
  | c :: rest => c :: removeTDash rest

def nextTaskNum (tasks : List Task) : Nat :=
  if tasks.isEmpty then 1
  else (tasks.foldl (fun m t =>
    match pyParseInt.digits? (removeTDash t.taskID.data) with
    | some n => max m n
    | none => m) 0) + 1

/-- Source `taskadd` (`task_add_command`, lines 331-376); the assignee check
reads the profiles from disk (`load_profiles()`, line 361). -/
def taskaddHandler (s : MachineState) (projId : String) : HRes :=
  if projId = "" then .ok (perr "Usage: taskadd <PROJECT_ID>" s)
  else if !(dictContains s.projectsMem projId) then
    .ok (perr "Project not found." s)
  else do
    let (descRaw, s) ← popInput s
    let desc := pyStrip descRaw
    if desc = "" then .ok (perr "Task description cannot be empty." s)
    else do
      let (asgRaw, s) ← popInput s
      let asgIn := pyUpper (pyStrip asgRaw)
      let asg := if asgIn ≠ "" ∧ !(dictContains s.profilesDisk asgIn)
                 then "Unassigned"
                 else if asgIn = "" then "Unassigned" else asgIn
      match dictGet? s.projectsMem projId with
      | none => .ok s
      | some proj =>
        let newTask : Task :=
          { taskID := "T-" ++ toString (nextTaskNum proj.tasks),
            description := desc, assignedTo := asg, status := "Pending" }
        save_projects_m { s with projectsMem :=
          (dictInsert s.projectsMem projId
            { proj with tasks := proj.tasks ++ [newTask] }) }

/-- Source `taskupdate` (handler lines 1110-1116): delegate to
`task_update_command` on the in-memory maps (its user messages are
elided here; validation behaviour is proven on the function itself). -/
def taskupdateHandler (s : MachineState) (arg : String) : HRes :=
  let r := task_update_command s.projectsMem arg s.profilesMem
  let s := { s with projectsMem := r.1 }
  if r.2.2 then save_projects_m s else .ok s

/-- Source `taskdelete` (`task_delete_command`, lines 429-455). -/
def taskdeleteHandler (s : MachineState) (arg : String) : HRes :=
  let args := pySplitSpace 1 arg
  if args.length < 2 then .ok (perr "Usage: taskdelete <PROJECT_ID> <TASK_ID>" s)
  else
    let pid := pyUpper (args.headD "")
    let tid := pyUpper ((args.drop 1).headD "")
    match dictGet? s.projectsMem pid with
    | none => .ok (perr "Project not found." s)
    | some proj =>
      let remaining := proj.tasks.filter (fun t => !(t.taskID == tid))
      if remaining.length < proj.tasks.length then
        save_projects_m { s with projectsMem :=
          (dictInsert s.projectsMem pid { proj with tasks := remaining }) }
      else .ok (perr "Task not found." s)

/-- Source `exportdata` (`export_all_data`, lines 459-483): one external
write; its errors are caught locally. -/
def exportdataHandler (s : MachineState) : HRes := do
  let (fnRaw, s) ← popInput s
  let fn := pyStrip fnRaw
  if fn = "" then .ok (perr "Export cancelled: No filename provided." s)
  else .ok { s with writeLog := s.writeLog ++ [fn] }

/-- The body of `import_all_data` inside its `try` (lines 496-572):
merge and save each collection in turn; the history is re-loaded from
disk (line 563). -/
def importBody (snap : Snapshot) (s : MachineState) : HRes := do
  let s ← save_profiles_m
    { s with profilesMem := importSkipExisting s.profilesMem snap.profiles }
  let s ← save_logs_m
    { s with storiesMem := importSkipExisting s.storiesMem snap.logs }
  let s ← save_projects_m
    { s with projectsMem := importProjects s.projectsMem snap.projects }
  save_history_m (importHistory s.historyDisk snap.history) s

/-- Lines 1134-1137: after `import_all_data` returns, `main` re-loads
every in-memory collection from disk. -/
def reloadFromDisk (s : MachineState) : MachineState :=
  { s with profilesMem := s.profilesDisk, storiesMem := s.storiesDisk,
           projectsMem := s.projectsDisk }

/-- Source `importdata` (handler lines 1131-1146 with `import_all_data`,
lines 485-577): the filename prompt sits outside the `try`, the body
runs under the blanket `except Exception` handler (lines 576-577), and
the in-memory collections are re-loaded afterwards in every case. -/
def importdataHandler (s : MachineState) : HRes := do
  let (fnRaw, s) ← popInput s
  let fn := pyStrip fnRaw
  if fn = "" then
    .ok (reloadFromDisk (perr "Import cancelled: No filename provided." s))
  else
    match dictGet? s.fs fn with
    | none => .ok (reloadFromDisk (perr "File not found." s))
    | some none =>
      .ok (reloadFromDisk (perr "Error reading import file: not valid JSON." s))
    | some (some snap) =>
      match importBody snap s with
      | .ok s2 => .ok (reloadFromDisk s2)
      | .error s2 =>
        .ok (reloadFromDisk
          (perr "An unexpected error occurred during import." s2))

/-- Source `whoami` (lines 662-676): re-reads the token file when the global
id is falsy (unreachable through the guard, but kept faithfully). -/
def whoamiHandler (s : MachineState) : HRes :=
  if !(isTruthy s.currentUser) then
    .ok { s with currentUser := s.token.map pyStrip }
  else .ok s

/-- The guest allow-list of line 758, verbatim.  (Its fifth element is
a full command line containing spaces, which can never equal a
first-token `base_command`; so under the guard the restart line is
rejected like any privileged command.) -/
def allowedGuestCommands : List String :=
  ["login", "help", "clear", "exit", "hyprctl dispatch exit", "importdata"]

/-- The `elif` chain of `main` on `base_command` (the conditions are
pairwise exclusive, so their order is immaterial; the `exit` and
restart branches are handled by `stepIter`).  `loglist`,
`profileslist`, `searchprofile` hits, `projectslist`, `clear`,
`history`, `help` and the view commands only print. -/
def dispatchCommand (s : MachineState) (base arg : String) : HRes :=
  if base == "login" then loginHandler s
  else if base == "logout" then logoutHandler s
  else if base == "logbook" then logbookHandler s arg
  else if base == "loglist" then .ok s
  else if base == "newlog" then newlogHandler s
  else if base == "editlog" then editlogHandler s arg
  else if base == "deletelog" then deletelogHandler s arg
  else if base == "exportlogs" then exportlogsHandler s
  else if base == "profileslist" then .ok s
  else if base == "profilesview" then profilesviewHandler s arg
  else if base == "profilesadd" then profilesaddHandler s
  else if base == "profilesedit" then profileseditHandler s arg
  else if base == "profilesdelete" then profilesdeleteHandler s arg
  else if base == "searchprofile" then searchprofileHandler s arg
  else if base == "projectslist" then .ok s
  else if base == "projectview" then projectviewHandler s arg
  else if base == "projectadd" then projectaddHandler s
  else if base == "projectedit" then projecteditHandler s arg
  else if base == "projectdelete" then projectdeleteHandler s arg
  else if base == "taskadd" then
    taskaddHandler s (pyUpper ((pySplitSpace 1 arg).headD ""))
  else if base == "taskupdate" then taskupdateHandler s arg
  else if base == "taskdelete" then taskdeleteHandler s arg
  else if base == "exportdata" then exportdataHandler s
  else if base == "importdata" then importdataHandler s
  else if base == "clear" then .ok s
  else if base == "whoami" then whoamiHandler s
  else if base == "history" then .ok s
  else if base == "help" then .ok s
  else .ok (perr "not recognized as an internal or external command" s)

/-- The result of one loop iteration. -/
inductive StepResult where
  | next (s : MachineState)
  | exited (s : MachineState)
  | restarted (s : MachineState)
  | raised (s : MachineState)
  deriving Repr, DecidableEq

/-- One iteration of the `while True` loop (lines 750-1184): read a
line (`EOFError` when the stream is exhausted), strip it, lower-case
and split it on the first space, apply the auth gate (line 760), then
dispatch.  The `exit` branch records and clears the session before
returning; the restart branch (`command_raw == "hyprctl dispatch
exit"`, case-sensitive on the stripped raw line) records, clears and
re-executes the process. -/
def stepLine (s : MachineState) (line : String) : StepResult :=
  let raw := pyStrip line
  let parts := pySplitSpace 1 (pyLower raw)
  let base := parts.headD ""
  let arg := (parts.drop 1).headD ""
  if !(isTruthy s.currentUser) && !(allowedGuestCommands.contains base) then
    .next (perr "Command needs privileges. Please login first." s)
  else if base == "exit" then
    match record_event s (userOrUnknown s) "Exit" with
    | .ok s1 => .exited (clear_session s1)
    | .error s1 => .raised s1
  else if raw == "hyprctl dispatch exit" then
    match record_event s (userOrUnknown s) "Restart" with
    | .ok s1 => .restarted (clear_session s1)
    | .error s1 => .raised s1
  else
    match dispatchCommand s base arg with
    | .ok s1 => .next s1
    | .error s1 => .raised s1

def stepIter (s0 : MachineState) : StepResult :=
  match s0.inputs with
  | [] => .raised s0
  | line :: rest => stepLine { s0 with inputs := rest } line

theorem stepIter_cons (s0 : MachineState) (line : String) (rest : List String)
    (hin : s0.inputs = line :: rest) :
    stepIter s0 = stepLine { s0 with inputs := rest } line := by
  unfold stepIter
  rw [hin]

/-- How a run of the command loop ends. -/
inductive Outcome where
  | exited (s : MachineState)
  | restarted (s : MachineState)
  | errorExited (s : MachineState)
  | crashed (s : MachineState)
  | fuelOut (s : MachineState)
  deriving Repr, DecidableEq

/-- The top-level `except` handler (lines 1186-1191): record an
"Error Exit" event; the session token is left untouched.  If that
record itself fails to save, the exception propagates out of `main`
(`crashed`). -/
def handleTopException (s : MachineState) : Outcome :=
  match record_event s (userOrUnknown s) "Error Exit" with
  | .ok s1 => .errorExited s1
  | .error s1 => .crashed s1

/-- Run the loop; each iteration consumes at least one input line, so
any fuel of at least `inputs.length + 1` is enough to avoid
`fuelOut`. -/
def runLoop : Nat → MachineState → Outcome
  | 0, s => .fuelOut s
  | fuel + 1, s =>
    match stepIter s with
    | .next s1 => runLoop fuel s1
    | .exited s1 => .exited s1
    | .restarted s1 => .restarted s1
    | .raised s1 => handleTopException s1

/-- An empty machine state used by the concrete witnesses. -/
def baseState : MachineState :=
  { inputs := [], token := none, currentUser := none,
    storiesMem := [], profilesMem := [], projectsMem := [],
    storiesDisk := [], profilesDisk := [], projectsDisk := [],
    historyDisk := [], fs := [],
    oracle := { failProfiles := false, failLogs := false,
                failProjects := false, failHistory := false },
    today := "July 01, 2025", writeLog := [], errLog := [] }

/-- C4: Auth gate.  For every input line whose (lower-cased) first
token is not in the guest allow-list of line 758, processing the line
with `CurrentUserId` unset emits the authorization error and continues
the loop with only the input line consumed: every entity collection
(in memory and on disk), the session token and the write log are
unchanged, so nothing is mutated or persisted.  Every command named
outside the claim's allow-list {login, help, clear, exit, restart
and import} tokenises to such a first token, since the allow-list entry
`"hyprctl dispatch exit"` (the restart line) contains spaces and can
never equal a first token. -/
theorem auth_gate (s0 : MachineState) (line : String) (rest : List String)
    (hin : s0.inputs = line :: rest)
    (hauth : isTruthy s0.currentUser = false)
    (hbase : allowedGuestCommands.contains
        ((pySplitSpace 1 (pyLower (pyStrip line))).headD "") = false) :
    stepIter s0
      = .next { s0 with inputs := rest, errLog := (s0.errLog ++ ["Command needs privileges. Please login first."]) } := by
  rw [stepIter_cons s0 line rest hin]
  simp only [stepLine]
  have hc : (!(isTruthy ({ s0 with inputs := rest } : MachineState).currentUser)
      && !(allowedGuestCommands.contains
            ((pySplitSpace 1 (pyLower (pyStrip line))).headD ""))) = true := by
    have h1 : ({ s0 with inputs := rest } : MachineState).currentUser
        = s0.currentUser := rfl
    rw [h1, hauth, hbase]
    rfl
  rw [if_pos hc]
  rfl

/-- Concrete state for the C4 witness: logged out, one guarded command
pending. -/
def c4State : MachineState := { baseState with inputs := ["logbook 1"] }

/-- Witness for C4: a logged-out `logbook 1` is rejected with the
privileges error and changes nothing else. -/
theorem auth_gate_witness :
    stepIter c4State
      = .next { c4State with inputs := [], errLog := ["Command needs privileges. Please login first."] } :=
  auth_gate c4State "logbook 1" [] rfl rfl (by decide)

/-- C10: Failed login.  When `login` is issued with no active session
and the credential pair is wrong, the appended history entry is
"Login Denied" with the attempted id verbatim when it is non-empty
and `"UNKNOWN"` when it is the empty string; the session token file
is not written (only the history file is), and `CurrentUserId` stays
as it was (unset). -/
theorem login_denied_records (s0 : MachineState) (idRaw pw : String)
    (rest : List String)
    (hin : s0.inputs = "login" :: idRaw :: pw :: rest)
    (hauth : isTruthy s0.currentUser = false)
    (hfail : (idRaw == "demoplate" && pw == "245225") = false)
    (hsave : s0.oracle.failHistory = false) :
    stepIter s0
      = .next { s0 with inputs := rest, errLog := (s0.errLog ++ ["Access Denied."]), historyDisk := (s0.historyDisk ++ [{ userId := (if idRaw = "" then "UNKNOWN" else idRaw), eventType := "Login Denied" }]), writeLog := (s0.writeLog ++ [SESSION_HISTORY_FILE]) } := by
  rw [stepIter_cons s0 "login" (idRaw :: pw :: rest) hin]
  have hcur : ({ s0 with inputs := idRaw :: pw :: rest } : MachineState).currentUser
      = s0.currentUser := rfl
  simp only [stepLine]
  rw [show pyStrip "login" = "login" from by decide]
  rw [show pySplitSpace 1 (pyLower "login") = ["login"] from by decide]
  simp only [List.headD, List.drop]
  rw [if_neg (by rw [hcur, hauth]; decide)]
  rw [if_neg (by decide), if_neg (by decide)]
  have hd : dispatchCommand ({ s0 with inputs := idRaw :: pw :: rest }) "login" ""
      = loginHandler ({ s0 with inputs := idRaw :: pw :: rest }) := rfl
  rw [hd]
  simp only [loginHandler, hcur, hauth, popInput, bind, Except.bind,
    record_event, save_history_m, perr, hfail, hsave]
  simp [hsave]

/-- Concrete state for the C10 witness: logged out, a failing login
attempt with a non-empty id, then one with an empty id. -/
def c10State : MachineState :=
  { baseState with inputs := ["login", "intruder", "wrongpw"] }

/-- Witness for C10 at a concrete state: the denied attempt records
the attempted id verbatim, writes only the history file and leaves
the token and `CurrentUserId` unset. -/
theorem login_denied_records_witness :
    stepIter c10State
      = .next { c10State with inputs := [], errLog := ["Access Denied."], historyDisk := [{ userId := "intruder", eventType := "Login Denied" }], writeLog := [SESSION_HISTORY_FILE] } :=
  (login_denied_records c10State "intruder" "wrongpw" [] rfl rfl
    (by decide) rfl).trans (by decide)

/-- Concrete state violating C2 as stated: logged in, `newlog` with an
unwritable logs store raises, the loop terminates via the top-level
handler — which records "Error Exit" but does not clear the session
token. -/
def c2State : MachineState :=
  { baseState with
      inputs := ["newlog", "hello", "END"]
      token := some "demoplate"
      currentUser := some "demoplate"
      oracle := { failProfiles := false, failLogs := true, failProjects := false, failHistory := false } }

/-- C2 fails as stated: on the exception path the session-history
record is appended, but the session token file is NOT cleared before
the process stops — it still holds the logged-in user. -/
theorem exit_cleanup_counterexample :
    runLoop 1 c2State
      = .errorExited { c2State with inputs := [], storiesMem := [(1, ["July 01, 2025 — hello"])], historyDisk := [{ userId := "demoplate", eventType := "Error Exit" }], writeLog := [SESSION_HISTORY_FILE] }
    ∧ (match runLoop 1 c2State with
       | .errorExited s1 => s1.token
       | _ => none) = some "demoplate" := by decide

/-- C2 amended: when the loop terminates through the explicit `exit`
command it first appends an "Exit" history record and clears the
session token and user; when it terminates through an unrecovered
exception, the top-level handler appends an "Error Exit" record
(provided the history store is writable — otherwise the exception
propagates unrecorded) and stops, but the session token file is left
exactly as it was at the raise point: the exception path does not
clear it. -/
theorem exit_and_error_termination (fuel : Nat) (s0 s1 : MachineState) :
    (stepIter s0 = .exited s1 →
       s1.token = none ∧ s1.currentUser = none ∧
       s1.historyDisk = s0.historyDisk
         ++ [{ userId := userOrUnknown s0, eventType := "Exit" }]) ∧
    (stepIter s0 = .raised s1 →
       runLoop (fuel + 1) s0 = handleTopException s1 ∧
       (s1.oracle.failHistory = false →
         runLoop (fuel + 1) s0
           = .errorExited { s1 with historyDisk := (s1.historyDisk ++ [{ userId := userOrUnknown s1, eventType := "Error Exit" }]), writeLog := (s1.writeLog ++ [SESSION_HISTORY_FILE]) })) := by
  constructor
  · intro h
    cases hin : s0.inputs with
    | nil =>
      unfold stepIter at h
      rw [hin] at h
      exact absurd h (by simp)
    | cons line rest =>
      rw [stepIter_cons s0 line rest hin] at h
      simp only [stepLine] at h
      split at h
      · exact absurd h (by simp)
      · split at h
        · -- the exit branch
          split at h
          case _ s2 heq =>
            -- record_event succeeded with state s2
            have hs1 : s1 = clear_session s2 := by
              have := h
              injection this with h2
              exact h2.symm
            have hs2 : s2 = { ({ s0 with inputs := rest } : MachineState) with
                historyDisk := (({ s0 with inputs := rest } : MachineState).historyDisk ++ [{ userId := userOrUnknown ({ s0 with inputs := rest }), eventType := "Exit" }]), writeLog := (({ s0 with inputs := rest } : MachineState).writeLog ++ [SESSION_HISTORY_FILE]) } := by
              unfold record_event save_history_m at heq
              split at heq
              · exact absurd heq (by simp)
              · injection heq with h2
                exact h2.symm
            rw [hs1, hs2]
            exact ⟨rfl, rfl, rfl⟩
          case _ s2 heq => exact absurd h (by simp)
        · -- restart and dispatch branches cannot yield `.exited`
          split at h
          · split at h
            · exact absurd h (by simp)
            · exact absurd h (by simp)
          · split at h
            · exact absurd h (by simp)
            · exact absurd h (by simp)
  · intro h
    have hrun : runLoop (fuel + 1) s0 = handleTopException s1 := by
      unfold runLoop
      rw [h]
    refine ⟨hrun, ?_⟩
    intro hsave
    rw [hrun]
    unfold handleTopException record_event save_history_m
    rw [if_neg (by rw [hsave]; decide)]

/-- Concrete state for the C2 witness: logged in, an `exit` command
pending, all stores writable. -/
def c2ExitState : MachineState :=
  { baseState with
      inputs := ["exit"]
      token := some "demoplate"
      currentUser := some "demoplate" }

/-- The state after processing that `exit`. -/
def c2ExitResult : MachineState :=
  { baseState with inputs := [], historyDisk := [{ userId := "demoplate", eventType := "Exit" }], writeLog := [SESSION_HISTORY_FILE] }

/-- Witness for the amended C2 at a concrete run: the `exit` command
appends the "Exit" record and clears the token and user. -/
theorem exit_and_error_termination_witness :
    c2ExitResult.token = none ∧ c2ExitResult.currentUser = none ∧
    c2ExitResult.historyDisk
      = c2ExitState.historyDisk
        ++ [{ userId := userOrUnknown c2ExitState, eventType := "Exit" }] :=
  (exit_and_error_termination 0 c2ExitState c2ExitResult).1 (by decide)

/-- Snapshot file content for the C8 counterexample. -/
def c8Snap : Snapshot :=
  { profiles := [("P-9",
      { name := "Ninth", id := "P-9", role := "N/A", ic := "N/A",
        pn := "N/A", cb := none })]
    logs := []
    projects := []
    history := [] }

/-- Concrete state violating C8 as stated: logged in, `importdata` on
a valid snapshot with an unwritable profiles store, then `exit`. -/
def c8State : MachineState :=
  { baseState with
      inputs := ["importdata", "snap.json", "exit"]
      token := some "demoplate"
      currentUser := some "demoplate"
      fs := [("snap.json", some c8Snap)]
      oracle := { failProfiles := true, failLogs := false, failProjects := false, failHistory := false } }

/-- C8 fails as stated for `importdata`: the save failure inside
the import is caught by the blanket handler (its error tag is
printed, no profiles file is written), the loop CONTINUES, processes
the following `exit` normally and terminates with an "Exit" record —
not with an "Error Exit". -/
theorem save_failure_counterexample :
    runLoop 3 c8State
      = .exited { c8State with inputs := [], token := none, currentUser := none, errLog := ["An unexpected error occurred during import."], historyDisk := [{ userId := "demoplate", eventType := "Exit" }], writeLog := [SESSION_HISTORY_FILE] } := by
  decide

/-- C8 amended: a storage error raised during a save propagates out
of the command handler (e.g. `newlog` raises when the logs store is
unwritable, with the in-memory mutation kept); any exception reaching
the top of the loop ends the run through the top-level handler, with
no retry and no further command processed.  `importdata` is the
exception: its blanket `except` swallows everything raised after the
filename prompt (saves included), so with at least one input line it
always returns normally and the loop continues. -/
theorem save_failure_propagation :
    (∀ (fuel : Nat) (s0 s1 : MachineState),
       stepIter s0 = .raised s1 →
       runLoop (fuel + 1) s0 = handleTopException s1) ∧
    (∀ (s : MachineState), s.inputs ≠ [] →
       ∃ s2, importdataHandler s = .ok s2) ∧
    (∀ (s : MachineState) (lines : List String) (rest : List String),
       readLinesUntilEnd s.inputs [] = some (lines, rest) →
       lines ≠ [] →
       s.oracle.failLogs = true →
       ∃ s2, newlogHandler s = .error s2) := by
  refine ⟨?_, ?_, ?_⟩
  · intro fuel s0 s1 h
    unfold runLoop
    rw [h]
  · intro s hne
    cases hin : s.inputs with
    | nil => exact absurd hin hne
    | cons l rest =>
      unfold importdataHandler popInput
      rw [hin]
      simp only [bind, Except.bind]
      by_cases hfn : pyStrip l = ""
      · rw [if_pos hfn]
        exact ⟨_, rfl⟩
      · rw [if_neg hfn]
        cases dictGet? ({ s with inputs := rest } : MachineState).fs (pyStrip l) with
        | none => exact ⟨_, rfl⟩
        | some osnap =>
          cases osnap with
          | none => exact ⟨_, rfl⟩
          | some snap =>
            dsimp only
            cases importBody snap ({ s with inputs := rest } : MachineState) with
            | ok s2 => exact ⟨_, rfl⟩
            | error s2 => exact ⟨_, rfl⟩
  · intro s lines rest hread hne hfail
    unfold newlogHandler
    rw [hread]
    dsimp only
    rw [if_neg hne]
    unfold save_logs_m
    rw [if_pos hfail]
    exact ⟨_, rfl⟩

/-- The state at the raise point of `c2State`'s failed `newlog`. -/
def c2RaisedState : MachineState :=
  { c2State with inputs := [], storiesMem := [(1, ["July 01, 2025 — hello"])] }

/-- Witness for the amended C8, applying each conjunct at a concrete
input. -/
theorem save_failure_propagation_witness :
    runLoop 1 c2State = handleTopException c2RaisedState ∧
    (∃ s2, importdataHandler { c8State with inputs := ["snap.json"] }
        = Except.ok s2) ∧
    (∃ s2, newlogHandler { c2State with inputs := ["hello", "END"] }
        = Except.error s2) :=
  ⟨save_failure_propagation.1 0 c2State c2RaisedState (by decide),
   save_failure_propagation.2.1 _ (by decide),
   save_failure_propagation.2.2 _ ["hello"] [] (by decide) (by decide) rfl⟩

end PlateCore
